import Mathlib

/-!
Verification development for the moderation decision pipeline of the
`mod-gpt` repository.  The Python sources under `src/modgpt` and
`src/sentinel` are shallowly embedded: pure logic becomes Lean functions,
database rows become structures, and the side effects of one event-handling
call (platform calls, audit records, store writes) are reified as a list of
`Effect` values in the order the source performs them.  External
collaborators (the chat platform, the LLM reasoning service) are modelled by
explicit parameters: the platform by a `World` record of resolution
functions, the reasoning service by an `LLMResult` value.
-/

namespace ModGPT

/-! ## Text primitives

`str.lower()` in the source is applied to moderation patterns and message
content; the model lower-cases ASCII letters, working over `List Char`. -/

/-- ASCII lower-casing of one character (model of Python `str.lower` on the
ASCII range handled by the moderation patterns). -/
def lowerChar (c : Char) : Char :=
  if 'A' ≤ c && c ≤ 'Z' then Char.ofNat (c.toNat + 32) else c

/-- Lower-cased character list of a string: the model of `s.lower()`. -/
def lower (s : String) : List Char := s.data.map lowerChar

/-- Regex word character (`\w` over the ASCII range): letter, digit or
underscore. -/
def isWordChar (c : Char) : Bool := c.isAlphanum || c == '_'

/-- Word-character test on an optional character; positions outside the text
count as non-word. -/
def isWordCharOpt : Option Char → Bool
  | none => false
  | some c => isWordChar c

/-- A regex word boundary `\b` holds between two adjacent (optional)
characters iff exactly one side is a word character. -/
def boundaryOk (l r : Option Char) : Bool := isWordCharOpt l != isWordCharOpt r

/-- `needle` occurs contiguously inside `hay`: the model of Python's
`needle in hay` substring test. -/
def containsSub (needle hay : List Char) : Bool :=
  match hay with
  | [] => needle.isEmpty
  | c :: rest => needle.isPrefixOf (c :: rest) || containsSub needle rest

/-- The `contains` pattern kind of `_check_message_for_violations`:
`rule["pattern"].lower() in content_lower`. -/
def containsMatch (pat text : String) : Bool := containsSub (lower pat) (lower text)

/-- Does the escaped literal pattern `p`, wrapped in `\b ... \b`, match at the
current position of the text?  `t` is the remaining text, `prev` the character
just before the current position.  This is the positional semantics of
`re.search(r"\b" + re.escape(p) + r"\b", text)` at one candidate position. -/
def matchAtExact (p t : List Char) (prev : Option Char) : Bool :=
  p.isPrefixOf t
    && boundaryOk prev t.head?
    && boundaryOk (if p.isEmpty then prev else p.getLast?) (t.drop p.length).head?

/-- Scan all candidate positions of the text for a `\b pat \b` match, keeping
track of the previous character (the regex-search semantics of the `exact`
branch). -/
def searchExact (p : List Char) (prev : Option Char) (t : List Char) : Bool :=
  matchAtExact p t prev ||
    match t with
    | [] => false
    | c :: rest => searchExact p (some c) rest

/-- The `exact` pattern kind of `_check_message_for_violations`:
`re.search(r"\b" + re.escape(rule["pattern"].lower()) + r"\b", content_lower)`. -/
def exactMatch (pat text : String) : Bool := searchExact (lower pat) none (lower text)

/-- Declarative occurrence: `p` appears contiguously in `t` with a regex word
boundary at both ends (the property the spec states for `exact` matches). -/
def occursAtWordBoundary (p t : List Char) : Prop :=
  ∃ pre post, t = pre ++ p ++ post
    ∧ boundaryOk pre.getLast? (p ++ post).head? = true
    ∧ boundaryOk (pre ++ p).getLast? post.head? = true

/-! ## Heuristic store (`heuristic_rules` table, `src/sentinel/db.py`) -/

/-- One row of the `heuristic_rules` table.  `guildId = none` models a global
rule (`guild_id is null`); confidence is the SQL float modelled as a
rational. -/
structure HeuristicRule where
  id : Nat
  guildId : Option Nat
  ruleType : String
  pattern : String
  patternType : String
  confidence : Rat
  severity : String
  reason : String
  active : Bool
  useCount : Nat
  falsePositiveCount : Nat
  version : Nat
  createdBy : String
  deriving DecidableEq, Repr

/-- One iteration of the matching loop in `_check_message_for_violations`.
The `regex` and `fuzzy` kinds call external engines (`re.search` with a free
pattern, `difflib.SequenceMatcher`); they are abstracted by `oracle`.  A
regex that fails to compile is logged and skipped (`continue`), which the
oracle models by answering `false`.  Unknown pattern kinds leave `matched`
false. -/
def matchesRule (oracle : HeuristicRule → String → Bool) (content : String)
    (r : HeuristicRule) : Bool :=
  if r.patternType = "exact" then exactMatch r.pattern content
  else if r.patternType = "regex" then oracle r content
  else if r.patternType = "fuzzy" then oracle r content
  else if r.patternType = "contains" then containsMatch r.pattern content
  else false

/-- The `order by confidence desc, use_count desc` ordering of
`fetch_active_heuristics`: `a` may come before `b`. -/
def heuristicOrder (a b : HeuristicRule) : Prop :=
  b.confidence < a.confidence ∨ (a.confidence = b.confidence ∧ b.useCount ≤ a.useCount)

instance : DecidableRel heuristicOrder := fun a b => by
  unfold heuristicOrder; infer_instance

instance : IsTotal HeuristicRule heuristicOrder := by
  constructor
  intro a b
  rcases lt_trichotomy a.confidence b.confidence with h | h | h
  · exact Or.inr (Or.inl h)
  · rcases le_total b.useCount a.useCount with hu | hu
    · exact Or.inl (Or.inr ⟨h, hu⟩)
    · exact Or.inr (Or.inr ⟨h.symm, hu⟩)
  · exact Or.inl (Or.inl h)

instance : IsTrans HeuristicRule heuristicOrder := by
  constructor
  intro a b c hab hbc
  rcases hab with h1 | ⟨h1, h1u⟩
  · rcases hbc with h2 | ⟨h2, _⟩
    · exact Or.inl (h2.trans h1)
    · exact Or.inl (h2 ▸ h1)
  · rcases hbc with h2 | ⟨h2, h2u⟩
    · exact Or.inl (h1 ▸ h2)
    · exact Or.inr ⟨h1.trans h2, h2u.trans h1u⟩

/-- `fetch_active_heuristics` (`src/sentinel/db.py`): active rules scoped to
the guild or global, at or above the confidence floor, ordered by descending
confidence then descending use count. -/
def fetch_active_heuristics (db : List HeuristicRule) (guildId : Nat)
    (minConfidence : Rat) : List HeuristicRule :=
  List.insertionSort heuristicOrder
    (db.filter fun r =>
      (r.guildId == some guildId || r.guildId == none) && r.active
        && decide (minConfidence ≤ r.confidence))

/-! ## Conversation tracker (`src/modgpt/services/conversations.py` and the
conversation tables of `src/sentinel/db.py`) -/

/-- Exit keywords that signal the user wants to end the conversation
(`EXIT_KEYWORDS` in `conversations.py`). -/
def EXIT_KEYWORDS : List String :=
  ["nevermind", "never mind", "stop", "quit", "cancel", "forget it",
   "ignore that", "not you", "wasn't talking to you"]

/-- `_contains_exit_keyword`: any exit keyword is a substring of the
lower-cased content. -/
def contains_exit_keyword (content : String) : Bool :=
  EXIT_KEYWORDS.any fun kw => containsSub kw.data (lower content)

/-- One row of `conversation_threads`.  Timestamps are seconds (integers). -/
structure ConvRow where
  conversationId : Nat
  guildId : Nat
  channelId : Nat
  threadId : Option Nat
  participants : List Nat
  lastActivityAt : Int
  active : Bool
  deriving DecidableEq, Repr

/-- `order by last_activity_at desc limit 1`: keep the row with the largest
`last_activity_at` (first such row on ties). -/
def selectLatest (rows : List ConvRow) : Option ConvRow :=
  rows.foldl
    (fun best r =>
      match best with
      | none => some r
      | some b => if b.lastActivityAt < r.lastActivityAt then some r else some b)
    none

/-- `find_active_conversation` (`src/sentinel/db.py`).  With a thread id the
query keys on `(guild_id, thread_id, active)`; otherwise it keys on
`(guild_id, channel_id, thread_id is null, active)`, requires activity within
the last 30 minutes and the user among the participants. -/
def find_active_conversation (db : List ConvRow) (now : Int) (guildId channelId userId : Nat)
    (threadId : Option Nat) : Option ConvRow :=
  match threadId with
  | some t =>
    selectLatest (db.filter fun r =>
      r.guildId == guildId && r.threadId == some t && r.active)
  | none =>
    selectLatest (db.filter fun r =>
      r.guildId == guildId && r.channelId == channelId && r.threadId == none
        && r.active && decide (now - 1800 < r.lastActivityAt)
        && r.participants.contains userId)

/-- The slice of a Discord message the pipeline reads.  When the message is
in a thread, `channelId` is the thread's id and `parentId` the parent
channel's id (mirroring `message.channel.id` / `message.channel.parent.id`). -/
structure Msg where
  msgId : Nat
  authorId : Nat
  authorIsBot : Bool
  guildId : Nat
  channelId : Nat
  isThread : Bool
  parentId : Nat
  mentions : List Nat
  content : String
  createdAt : Int
  deriving DecidableEq, Repr

/-- Outcome of `should_respond`: the decision, the conversation to continue,
and the conversation closed through `end_conversation` (if any). -/
structure RespondResult where
  respond : Bool
  convId : Option Nat
  endedConv : Option Nat
  deriving DecidableEq, Repr

/-- `ConversationManager.should_respond` (`conversations.py`), with the
database reads of `find_active_conversation` inlined over the row list. -/
def should_respond (db : List ConvRow) (now : Int) (botUserId : Nat) (msg : Msg)
    (botMentioned : Bool) : RespondResult :=
  if msg.authorIsBot then ⟨false, none, none⟩
  else if botMentioned then ⟨true, none, none⟩
  else
    let threadId : Option Nat := if msg.isThread then some msg.channelId else none
    let threadHit : Option ConvRow :=
      match threadId with
      | some t =>
        find_active_conversation db now msg.guildId
          (if msg.isThread then msg.parentId else msg.channelId) msg.authorId (some t)
      | none => none
    match threadHit with
    | some conv => ⟨true, some conv.conversationId, none⟩
    | none =>
      let otherMentions := msg.mentions.filter fun u => u != botUserId && u != msg.authorId
      if otherMentions ≠ [] then ⟨false, none, none⟩
      else
        match find_active_conversation db now msg.guildId
            (if msg.isThread then msg.parentId else msg.channelId) msg.authorId threadId with
        | none => ⟨false, none, none⟩
        | some conv =>
          let timeSinceLast := now - conv.lastActivityAt
          if 60 < timeSinceLast then ⟨false, none, none⟩
          else if contains_exit_keyword msg.content then
            ⟨false, none, some conv.conversationId⟩
          else ⟨true, some conv.conversationId, none⟩

/-! ## Heuristic upsert (`insert_heuristic_rule`, `src/sentinel/db.py`) -/

/-- The natural key of a heuristic rule: `(guild_id, pattern, pattern_type)`
compared with `is not distinct from` on the guild. -/
def heuristicKeyMatches (guildId : Option Nat) (pattern patternType : String)
    (r : HeuristicRule) : Bool :=
  r.guildId == guildId && r.pattern == pattern && r.patternType == patternType

/-- Result of one `insert_heuristic_rule` call: the updated table, the id of
the affected row, and whether a new row was created. -/
structure InsertResult where
  table : List HeuristicRule
  ruleId : Nat
  isNew : Bool
  deriving Repr

/-- `insert_heuristic_rule` (`src/sentinel/db.py`).  If a row with the same
`(guild_id, pattern, pattern_type)` exists, no row is added; when the new
confidence is strictly higher, or equal with a different severity, the row is
updated with `confidence = greatest(confidence, new)` and
`severity = case when new > confidence then new_severity else severity end`
(both `confidence` occurrences reading the old value) and a version bump.
Otherwise a fresh row is appended with id `nextId`. -/
def insert_heuristic_rule (table : List HeuristicRule) (nextId : Nat)
    (guildId : Option Nat) (ruleType pattern patternType : String)
    (confidence : Rat) (severity : String) (reason : String)
    (createdBy : String := "llm") : InsertResult :=
  match table.find? (heuristicKeyMatches guildId pattern patternType) with
  | some existing =>
    if existing.confidence < confidence
        || (existing.confidence == confidence && existing.severity != severity) then
      { table := table.map fun r =>
          if r.id == existing.id then
            { r with
              confidence := max r.confidence confidence
              severity := if r.confidence < confidence then severity else r.severity
              version := r.version + 1 }
          else r
        ruleId := existing.id
        isNew := false }
    else
      { table := table, ruleId := existing.id, isNew := false }
  | none =>
    { table := table ++
        [{ id := nextId, guildId := guildId, ruleType := ruleType, pattern := pattern,
           patternType := patternType, confidence := confidence, severity := severity,
           reason := reason, active := true, useCount := 0, falsePositiveCount := 0,
           version := 0, createdBy := createdBy }]
      ruleId := nextId
      isNew := true }

/-- Numeric rank of a severity label, for the spec's notion of "raising
severity to the max". -/
def sevRank (s : String) : Nat :=
  if s = "low" then 0
  else if s = "medium" then 1
  else if s = "high" then 2
  else if s = "critical" then 3
  else 0

/-- The larger of two severity labels under `sevRank`. -/
def maxSeverity (a b : String) : String :=
  if sevRank a < sevRank b then b else a

/-! ## Effects of one event-handling call

The side effects of `ModerationAgent` methods are reified in source order.
`_log_action` persists one `ModerationRecord` (with `dry_run` recorded in its
metadata) and optionally mirrors it to the configured logs channel; the model
keeps the persisted record, the mirror being part of the audit trail. -/

/-- A `ModerationRecord` written by `_log_action` (`moderation_actions`
table).  `dryRun` models the `dry_run: true` metadata tag. -/
structure AuditRecord where
  guildId : Nat
  channelId : Option Nat
  actionType : String
  summary : String
  targetUserId : Option Nat
  reason : Option String
  messageId : Option Nat
  dryRun : Bool
  deriving DecidableEq, Repr

/-- One observable side effect, in the order the source performs them.
`platform*` constructors are calls into the chat-platform collaborator
(attempted calls: a permission failure after the call does not remove the
attempt); `store*` constructors are relational-store writes. -/
inductive Effect where
  | platformSend (channelId : Nat) (content : String)
  | platformCreateThread (messageId : Nat)
  | platformDelete (messageId : Nat)
  | platformKick (userId : Nat)
  | platformBan (userId : Nat)
  | platformTimeout (userId : Nat) (minutes : Int)
  | platformDM (userId : Nat) (content : String)
  | audit (rec : AuditRecord)
  | storeStartConversation (guildId channelId userId messageId : Nat) (threadId : Option Nat)
  | storeAddParticipant (convId userId : Nat)
  | storeAddConvMessage (convId messageId : Nat) (isBot : Bool)
  | storeEndConversation (convId : Nat)
  | storeRecordActivity (channelId : Nat)
  | storeIncrementUsage (ruleId : Nat)
  | storeInsertHeuristic (guildId : Option Nat) (pattern : String) (patternType : String)
  deriving DecidableEq, Repr

/-- Is the effect a mutating call against the chat platform? -/
def Effect.isPlatformMutation : Effect → Bool
  | .platformSend _ _ => true
  | .platformCreateThread _ => true
  | .platformDelete _ => true
  | .platformKick _ => true
  | .platformBan _ => true
  | .platformTimeout _ _ => true
  | .platformDM _ _ => true
  | _ => false

/-- The platform-mutating calls among a list of effects. -/
def platformMutations (l : List Effect) : List Effect :=
  l.filter Effect.isPlatformMutation

/-- The audit records written among a list of effects. -/
def auditRecords (l : List Effect) : List AuditRecord :=
  l.filterMap fun e =>
    match e with
    | .audit r => some r
    | _ => none

/-- Is the effect a platform message send? -/
def Effect.isSend : Effect → Bool
  | .platformSend _ _ => true
  | _ => false

/-- How many platform message sends a list of effects performs. -/
def sendCount (l : List Effect) : Nat := (l.filter Effect.isSend).length

/-- One entry of `context.recent_messages` (author and timestamp), as
serialised by `_gather_recent_messages`. -/
structure RecentMsg where
  authorId : Nat
  createdAt : Int
  deriving DecidableEq, Repr

/-- One message of a channel-history read (newest first), as consumed by
`should_use_thread`. -/
structure HistMsg where
  authorId : Nat
  isBot : Bool
  createdAt : Int
  deriving DecidableEq, Repr

/-- The chat-platform collaborator (out of scope per the spec): resolution
and success of the platform calls the executor makes. -/
structure World where
  now : Int
  members : List Nat
  channels : List Nat
  channelGuild : Nat → Option Nat
  fetchMessageOk : Nat → Bool
  messageInThread : Nat → Bool
  messageThread : Nat → Option Nat
  createThreadOk : Bool
  newThreadId : Nat
  newMessageId : Nat
  messageChannel : Nat → Nat
  sendOk : Bool
  heuristicExists : Option Nat → String → String → Bool
  history : List HistMsg

/-- `EventContext` (`moderation.py`): the event slice handed to tool
execution. -/
structure Ctx where
  guildId : Option Nat
  channelId : Option Nat
  channelIsThread : Bool
  messageId : Option Nat
  messageContent : String
  messageCreatedAt : Int
  recentMessages : List RecentMsg
  replyToCreatedAt : Option Int
  dryRun : Bool

/-- Decoded tool-call arguments; every field is optional, as `args.get`
returns `None` for a missing key. -/
structure ToolArgs where
  action : Option String := none
  targetUserId : Option Nat := none
  reason : Option String := none
  durationMinutes : Option Int := none
  messageId : Option Nat := none
  message : Option String := none
  channelId : Option Nat := none
  replyToMessageId : Option Nat := none
  replyInThread : Option Bool := none
  threadName : Option String := none
  contextTag : Option String := none
  summary : Option String := none
  priority : Option String := none
  ruleType : Option String := none
  pattern : Option String := none
  patternType : Option String := none
  confidence : Option Rat := none
  severity : Option String := none
  deriving DecidableEq, Repr

/-- A normalized tool call from `LLMClient.extract_tool_calls`.  `args = none`
models arguments that fail to decode as JSON. -/
structure ToolCall where
  name : String
  args : Option ToolArgs
  deriving DecidableEq, Repr

/-- Outcome of one `LLMClient.run` call: unavailable (`LLMUnavailable`),
any other exception, or a response carrying tool calls. -/
inductive LLMResult where
  | unavailable
  | failure
  | ok (toolCalls : List ToolCall)
  deriving DecidableEq, Repr

/-! ## Action executor (`_execute_tool_call` and the `_tool_*` methods) -/

/-- `_log_action` condensed to the `ModerationRecord` it persists. -/
def logAction (guildId : Nat) (actionType summary : String)
    (channelId targetUserId : Option Nat) (reason : Option String)
    (messageId : Option Nat) (dryRun : Bool) : Effect :=
  Effect.audit
    { guildId := guildId, channelId := channelId, actionType := actionType,
      summary := summary, targetUserId := targetUserId, reason := reason,
      messageId := messageId, dryRun := dryRun }

/-- The `context.message and str(context.message.id) == message_id` test of
the `delete_message` branch: the call targets the context message. -/
def targetsContext (ctx : Ctx) (args : ToolArgs) : Bool :=
  match ctx.messageId, args.messageId with
  | some m, some a => m == a
  | _, _ => false

/-- `_tool_take_moderation_action` (`moderation.py`).  Every simulated branch
writes the record with the dry-run tag and returns before any platform call;
the real branches attempt the platform call and then write the record. -/
def tool_take_moderation_action (world : World) (ctx : Ctx) (args : ToolArgs) :
    List Effect :=
  match args.action, args.targetUserId with
  | some action, some target =>
    (match ctx.guildId with
    | none => []
    | some g =>
      if world.members.contains target then
        let dry := ctx.dryRun
        let reason := args.reason.getD "No reason provided."
        if action = "delete_message" then
          if targetsContext ctx args then
            if dry then
              [logAction g "delete_message" "Would delete message from member."
                ctx.channelId (some target) (some reason) ctx.messageId true]
            else
              [Effect.platformDelete (ctx.messageId.getD 0),
               logAction g "delete_message" "Deleted message from member."
                 ctx.channelId (some target) (some reason) ctx.messageId false]
          else
            [logAction g "delete_message" "Deleted message from member."
              ctx.channelId (some target) (some reason) ctx.messageId false]
        else if action = "warn" then
          if dry then
            [logAction g "warn" "Would warn member."
              ctx.channelId (some target) (some reason) none true]
          else
            [Effect.platformDM target ("Moderator warning: " ++ reason),
             logAction g "warn" "Issued warning to member."
               ctx.channelId (some target) (some reason) none false]
        else if action = "timeout" then
          let duration := args.durationMinutes.getD 10
          if dry then
            [logAction g "timeout" "Would timeout member."
              ctx.channelId (some target) (some reason) none true]
          else
            [Effect.platformTimeout target duration,
             logAction g "timeout" "Timed out member."
               ctx.channelId (some target) (some reason) none false]
        else if action = "kick" then
          if dry then
            [logAction g "kick" "Would kick member."
              ctx.channelId (some target) (some reason) none true]
          else
            [Effect.platformKick target,
             logAction g "kick" "Kicked member."
               ctx.channelId (some target) (some reason) none false]
        else if action = "ban" then
          if dry then
            [logAction g "ban" "Would ban member."
              ctx.channelId (some target) (some reason) none true]
          else
            [Effect.platformBan target,
             logAction g "ban" "Banned member."
               ctx.channelId (some target) (some reason) none false]
        else if action = "flag" then
          if dry then
            [logAction g "flag" "Would flag member."
              ctx.channelId (some target) (some reason) none true]
          else
            [logAction g "flag" "Flagged member."
              ctx.channelId (some target) (some reason) none false]
        else []
      else [])
  | _, _ => []

/-- `_should_reply_in_thread` (`moderation.py`): an explicit choice wins;
otherwise thread when three distinct authors appeared within five minutes or
the reply target is over an hour old. -/
def should_reply_in_thread (world : World) (ctx : Ctx) (explicit : Option Bool) :
    Bool :=
  match explicit with
  | some b => b
  | none =>
    match ctx.messageId with
    | none => false
    | some _ =>
      if ctx.channelIsThread then false
      else
        let activeParticipants :=
          ((ctx.recentMessages.filter fun r =>
            world.now - r.createdAt ≤ 300).map RecentMsg.authorId).eraseDups
        if 3 ≤ activeParticipants.length then true
        else
          match ctx.replyToCreatedAt with
          | some t => decide (3600 < ctx.messageCreatedAt - t)
          | none => false

/-- Channel resolution of `_tool_send_message`: an explicit `channel_id` is
looked up with `get_channel`/`fetch_channel` (resolution failure yields
none, with no fallback), otherwise the event's channel is used. -/
def resolveSendChannel (world : World) (ctx : Ctx) (args : ToolArgs) : Option Nat :=
  match args.channelId with
  | some c => if world.channels.contains c then some c else none
  | none => ctx.channelId

/-- The send-channel selection of `_tool_send_message` when replying in a
thread: reuse the reference message's thread, else its attached non-archived
thread, else attempt to create one (falling back to the resolved channel on
failure).  Returns the channel to send in and the thread-creation attempts
made. -/
def resolveSendTarget (world : World) (chan : Nat) (referenceMessage : Option Nat)
    (replyInThread : Bool) : Nat × List Effect :=
  match referenceMessage with
  | some base =>
    if replyInThread then
      if world.messageInThread base then (world.messageChannel base, [])
      else
        match world.messageThread base with
        | some th => (th, [])
        | none =>
          if world.createThreadOk then
            (world.newThreadId, [Effect.platformCreateThread base])
          else (chan, [Effect.platformCreateThread base])
    else (chan, [])
  | none => (chan, [])

/-- The reply-target resolution of `_tool_send_message`: an explicit
`reply_to_message_id` is fetched (fetch failure yields none, with no
fallback), otherwise the event's message is the reply target. -/
def resolveReference (world : World) (ctx : Ctx) (args : ToolArgs) : Option Nat :=
  match args.replyToMessageId with
  | some rid => if world.fetchMessageOk rid then some rid else none
  | none => ctx.messageId

/-- The inline-versus-thread decision of `_tool_send_message`: in the same
guild channel as the event the heuristic of `_should_reply_in_thread` is
consulted (with the explicit choice passed along); elsewhere the explicit
choice stands; a thread reply without a reply target is demoted to inline. -/
def chooseReplyInThread (world : World) (ctx : Ctx) (args : ToolArgs)
    (useThread : Bool) (chan : Nat) (referenceMessage : Option Nat) : Bool :=
  let explicitThreadChoice := args.replyInThread.getD useThread
  let sameChannelContext := ctx.messageId.isSome && ctx.channelId == some chan
  let rit :=
    if sameChannelContext && !ctx.channelIsThread then
      should_reply_in_thread world ctx (some explicitThreadChoice)
    else explicitThreadChoice
  if rit && referenceMessage.isNone then false else rit

/-- The post-send bookkeeping of `_tool_send_message`: when the send
succeeded, the bot response joins the conversation and channel activity is
recorded; a failed send records nothing. -/
def sendRecords (world : World) (conversationId : Option Nat) (sendChannel : Nat) :
    List Effect :=
  if world.sendOk then
    (match conversationId with
     | some cid => [Effect.storeAddConvMessage cid world.newMessageId true]
     | none => [])
      ++ [Effect.storeRecordActivity sendChannel]
  else []

/-- `_tool_send_message` (`moderation.py`).  The dry-run branch writes one
tagged record and returns before any platform interaction; otherwise the
reply target and thread choice are resolved and exactly one platform send is
attempted, recording the bot response and channel activity on success. -/
def tool_send_message (world : World) (ctx : Ctx) (args : ToolArgs)
    (conversationId : Option Nat) (useThread : Bool) : List Effect :=
  match args.message with
  | none => []
  | some content =>
    if content = "" then []
    else
      match resolveSendChannel world ctx args with
      | none => []
      | some chan =>
        match (match ctx.guildId with
               | some g => some g
               | none => world.channelGuild chan) with
        | none => []
        | some g =>
          if ctx.dryRun then
            [logAction g "message" "[DRY-RUN] Would post in channel."
              (some chan) none none none true]
          else
            let referenceMessage := resolveReference world ctx args
            let replyInThread :=
              chooseReplyInThread world ctx args useThread chan referenceMessage
            let sendTarget := resolveSendTarget world chan referenceMessage replyInThread
            sendTarget.2 ++ [Effect.platformSend sendTarget.1 content]
              ++ sendRecords world conversationId sendTarget.1

/-- `_tool_escalate` (`moderation.py`): writes one audit record, carrying the
context's dry-run flag; no platform side effect. -/
def tool_escalate (ctx : Ctx) (args : ToolArgs) : List Effect :=
  match args.summary, ctx.guildId with
  | some s, some g =>
    if s = "" then []
    else [logAction g "escalate" "Escalation requested." none none none none ctx.dryRun]
  | _, _ => []

/-- `_tool_suggest_heuristic` (`moderation.py`): upserts the rule in the
store; the creation is audited only when the rule is new, and always with
`dry_run=False` ("Always create heuristics"). -/
def tool_suggest_heuristic (world : World) (ctx : Ctx) (args : ToolArgs) :
    List Effect :=
  match ctx.guildId with
  | none => []
  | some g =>
    match args.ruleType, args.pattern, args.patternType, args.confidence,
        args.severity, args.reason with
    | some rt, some p, some pt, some conf, some sev, some rsn =>
      if rt = "" || p = "" || pt = "" || conf == 0 || sev = "" || rsn = "" then []
      else
        [Effect.storeInsertHeuristic (some g) p pt]
          ++ (if !world.heuristicExists (some g) p pt then
                [logAction g "heuristic_created" "New heuristic rule created."
                  none none none none false]
              else [])
    | _, _, _, _, _, _ => []

/-- `_execute_tool_call` (`moderation.py`): JSON-decode failures drop the
call with a warning; otherwise dispatch on the tool name, unknown names
being dropped. -/
def execute_tool_call (world : World) (ctx : Ctx) (call : ToolCall)
    (conversationId : Option Nat) (useThread : Bool) : List Effect :=
  match call.args with
  | none => []
  | some args =>
    if call.name = "take_moderation_action" then
      tool_take_moderation_action world ctx args
    else if call.name = "send_message" then
      tool_send_message world ctx args conversationId useThread
    else if call.name = "escalate_to_human" then tool_escalate ctx args
    else if call.name = "suggest_heuristic" then tool_suggest_heuristic world ctx args
    else []

/-! ## Reasoning dispatcher (`_reason_about_event`) and the heuristic tier -/

/-- The `send_message` deduplication loop of `_reason_about_event`: every
`send_message` call after the first is skipped with a warning. -/
def dedupSendCalls : List ToolCall → Bool → List ToolCall
  | [], _ => []
  | c :: rest, seen =>
    if c.name = "send_message" then
      if seen then dedupSendCalls rest seen
      else c :: dedupSendCalls rest true
    else c :: dedupSendCalls rest seen

/-- `_reason_about_event` (`moderation.py`): an unavailable reasoning service
or any other failure skips the event; otherwise the deduplicated tool calls
are executed in order. -/
def reason_about_event (world : World) (ctx : Ctx) (llm : LLMResult)
    (conversationId : Option Nat) (useThread : Bool) : List Effect :=
  match llm with
  | LLMResult.unavailable => []
  | LLMResult.failure => []
  | LLMResult.ok calls =>
    (dedupSendCalls calls false).flatMap fun c =>
      execute_tool_call world ctx c conversationId useThread

/-- `_handle_heuristic_detection` (`moderation.py`): the flagged message is
deleted immediately unless in dry-run (where only a log line is emitted, no
audit record); then the reasoning service picks additional consequences,
its tool calls executed without deduplication, and any reasoning failure
results in no action. -/
def handle_heuristic_detection (world : World) (ctx : Ctx) (msgId : Nat)
    (llm : LLMResult) : List Effect :=
  (if ctx.dryRun then [] else [Effect.platformDelete msgId])
    ++ match llm with
       | LLMResult.ok calls =>
         calls.flatMap fun c => execute_tool_call world ctx c none false
       | _ => []

/-- Outcome of `_check_message_for_violations`: whether a violation was
found and handled, the surfaced rule, the effects, and whether the
reasoning service was invoked. -/
structure CheckResult where
  handled : Bool
  detected : Option HeuristicRule
  effects : List Effect
  llmInvoked : Bool
  deriving Repr

/-- `_check_message_for_violations` (`moderation.py`): fetch active
heuristics at confidence ≥ 0.7, scan them in order for the first match
(regex errors skip the rule), increment only that rule's use count, and hand
the detection to the heuristic tier. -/
def check_message_for_violations (world : World) (ctx : Ctx)
    (heurDb : List HeuristicRule) (guildId : Nat) (msgId : Nat) (content : String)
    (oracle : HeuristicRule → String → Bool) (llm : LLMResult) : CheckResult :=
  let heuristics := fetch_active_heuristics heurDb guildId (mkRat 7 10)
  if heuristics.isEmpty then ⟨false, none, [], false⟩
  else
    match heuristics.find? (matchesRule oracle content) with
    | none => ⟨false, none, [], false⟩
    | some r =>
      ⟨true, some r,
        Effect.storeIncrementUsage r.id :: handle_heuristic_detection world ctx msgId llm,
        true⟩

/-! ## Automation matcher (`_apply_automation_if_needed`) and the event
router (`handle_message`) -/

/-- `AutomationRule` (`src/sentinel/services/state.py`): a deterministic
keyword/action policy bound to one channel. -/
structure AutomationRule where
  channelId : Nat
  triggerSummary : String
  action : String
  justification : String
  active : Bool
  keywords : List String
  deriving DecidableEq, Repr

/-- The slice of `BotState` the message pipeline reads. -/
structure BotState where
  botUserId : Nat
  dryRun : Bool
  proactiveModeration : Bool
  automations : List (Nat × AutomationRule)
  deriving Repr

/-- `state.automations.get(message.channel.id)`. -/
def lookupAutomation (state : BotState) (channelId : Nat) : Option AutomationRule :=
  (state.automations.find? fun p => p.1 == channelId).map Prod.snd

/-- The keyword test of `_apply_automation_if_needed`: an empty keyword list
always matches; otherwise some keyword must occur, lower-cased, in the
lower-cased content. -/
def automationKeywordsMatch (rule : AutomationRule) (msg : Msg) : Bool :=
  rule.keywords.isEmpty
    || rule.keywords.any fun kw => containsSub (lower kw) (lower msg.content)

/-- `_apply_automation_if_needed` (`moderation.py`).  Returns whether the
message was handled plus the effects.  Only the `kick` and `delete_message`
actions have an execution branch; any other bound action falls through and
returns `False`. -/
def apply_automation_if_needed (rule? : Option AutomationRule) (dryRun : Bool)
    (msg : Msg) : Bool × List Effect :=
  match rule? with
  | none => (false, [])
  | some rule =>
    if !rule.active then (false, [])
    else
      if !automationKeywordsMatch rule msg then (false, [])
      else if rule.action = "kick" then
        if dryRun then
          (true, [logAction msg.guildId "kick" "[DRY-RUN] Would kick member due to automation."
            (some msg.channelId) (some msg.authorId) (some rule.justification)
            (some msg.msgId) true])
        else
          (true,
            [Effect.platformSend msg.channelId "This channel is restricted. You will be removed.",
             Effect.storeRecordActivity msg.channelId,
             Effect.platformKick msg.authorId,
             logAction msg.guildId "kick" "Kicked member for automation rule."
               (some msg.channelId) (some msg.authorId) (some rule.justification)
               (some msg.msgId) false])
      else if rule.action = "delete_message" then
        if dryRun then
          (true, [logAction msg.guildId "delete_message"
            "[DRY-RUN] Would delete message due to automation."
            (some msg.channelId) (some msg.authorId) (some rule.justification)
            (some msg.msgId) true])
        else
          (true,
            [Effect.platformDelete msg.msgId,
             logAction msg.guildId "delete_message" "Deleted message per automation rule."
               (some msg.channelId) (some msg.authorId) (some rule.justification)
               (some msg.msgId) false])
      else (false, [])

/-- `start_or_continue_conversation` (`conversations.py`): start a fresh
conversation (id `newConvId`) or join the existing one, then append the
user's message. -/
def start_or_continue_conversation (msg : Msg) (conversationId : Option Nat)
    (newConvId : Nat) : Nat × List Effect :=
  let threadId : Option Nat := if msg.isThread then some msg.channelId else none
  let channelId := if msg.isThread then msg.parentId else msg.channelId
  match conversationId with
  | none =>
    (newConvId,
      [Effect.storeStartConversation msg.guildId channelId msg.authorId msg.msgId threadId,
       Effect.storeAddConvMessage newConvId msg.msgId false])
  | some c =>
    (c, [Effect.storeAddParticipant c msg.authorId,
         Effect.storeAddConvMessage c msg.msgId false])

/-- `handle_mention_tracking` (`conversations.py`): every mentioned user
other than the bot and the author joins the conversation. -/
def handle_mention_tracking (botUserId : Nat) (msg : Msg) (conversationId : Nat) :
    List Effect :=
  (msg.mentions.filter fun u => u != botUserId && u != msg.authorId).map fun u =>
    Effect.storeAddParticipant conversationId u

/-- `should_use_thread` (`conversations.py`): the channel is busy when three
or more distinct non-bot authors posted within the lookback window (the
history scan stops at the first message older than the window). -/
def should_use_thread (world : World) (channelIsThread : Bool)
    (lookbackMinutes : Int := 10) : Bool :=
  if channelIsThread then false
  else
    let recent := world.history.takeWhile fun m =>
      world.now - m.createdAt ≤ lookbackMinutes * 60
    let uniqueAuthors := ((recent.filter fun m => !m.isBot).map HistMsg.authorId).eraseDups
    3 ≤ uniqueAuthors.length

/-- Outcome of `handle_message`: the effects, whether the pattern matcher
(`_check_message_for_violations`) ran, and whether the reasoning service was
invoked (by `_reason_about_event` or by the heuristic tier). -/
structure HandleResult where
  effects : List Effect
  ranPatternMatcher : Bool
  invokedReasoning : Bool
  deriving Repr

/-- The `EventContext` built by `handle_message` for a guild message. -/
def msgCtx (world : World) (msg : Msg) (dryRun : Bool) : Ctx :=
  { guildId := some msg.guildId, channelId := some msg.channelId,
    channelIsThread := msg.isThread, messageId := some msg.msgId,
    messageContent := msg.content, messageCreatedAt := msg.createdAt,
    recentMessages := world.history.map fun m =>
      { authorId := m.authorId, createdAt := m.createdAt },
    replyToCreatedAt := none, dryRun := dryRun }

/-- `ModerationAgent.handle_message` (`moderation.py`): record activity,
consult the conversation tracker, then — when not responding — automation,
then proactive violation checking; when responding, start or continue the
conversation, re-check automation, and finally reason about the event. -/
def handle_message (world : World) (convDb : List ConvRow)
    (heurDb : List HeuristicRule) (state : BotState) (msg : Msg)
    (oracle : HeuristicRule → String → Bool) (llm : LLMResult)
    (newConvId : Nat) : HandleResult :=
  if msg.authorIsBot then ⟨[], false, false⟩
  else
    let activity := [Effect.storeRecordActivity msg.channelId]
    let botMentioned := msg.mentions.contains state.botUserId
    let resp := should_respond convDb world.now state.botUserId msg botMentioned
    let endEffs : List Effect :=
      match resp.endedConv with
      | some c => [Effect.storeEndConversation c]
      | none => []
    let ctx := msgCtx world msg state.dryRun
    if !resp.respond then
      let auto := apply_automation_if_needed
        (lookupAutomation state msg.channelId) state.dryRun msg
      if auto.1 then ⟨activity ++ endEffs ++ auto.2, false, false⟩
      else if state.proactiveModeration then
        let chk := check_message_for_violations world ctx heurDb msg.guildId
          msg.msgId msg.content oracle llm
        if chk.handled then ⟨activity ++ endEffs ++ chk.effects, true, chk.llmInvoked⟩
        else ⟨activity ++ endEffs, true, false⟩
      else ⟨activity ++ endEffs, false, false⟩
    else
      let startRes := start_or_continue_conversation msg resp.convId newConvId
      let mentionEffs := handle_mention_tracking state.botUserId msg startRes.1
      let auto := apply_automation_if_needed
        (lookupAutomation state msg.channelId) state.dryRun msg
      if auto.1 then
        ⟨activity ++ endEffs ++ startRes.2 ++ mentionEffs ++ auto.2, false, false⟩
      else
        let useThread := should_use_thread world msg.isThread
        ⟨activity ++ endEffs ++ startRes.2 ++ mentionEffs
          ++ reason_about_event world ctx llm (some startRes.1) useThread,
         false, true⟩

/-! ## Validity predicates

Conditions under which a tool call passes the executor's argument and
resolution checks (used to state the per-action audit guarantees). -/

/-- A `take_moderation_action` call that reaches an action branch: action and
target present, the member resolvable, a guild in context, and — for
`delete_message` — the call targeting the context message. -/
def validTakeAction (world : World) (ctx : Ctx) (args : ToolArgs) : Bool :=
  args.action.isSome && args.targetUserId.isSome
    && (args.targetUserId.elim false world.members.contains)
    && ctx.guildId.isSome
    && ["delete_message", "warn", "timeout", "kick", "ban", "flag"].contains
        (args.action.getD "")
    && (args.action.getD "" != "delete_message" || targetsContext ctx args)

/-- A `send_message` call that reaches the dry-run check: non-empty content,
a resolvable channel and a guild. -/
def validSend (world : World) (ctx : Ctx) (args : ToolArgs) : Bool :=
  args.message.isSome && args.message.getD "" != ""
    && (match resolveSendChannel world ctx args with
        | some chan => (ctx.guildId.orElse fun _ => world.channelGuild chan).isSome
        | none => false)

/-- An `escalate_to_human` call that reaches the audit write: a non-empty
summary and a guild in context. -/
def validEscalate (ctx : Ctx) (args : ToolArgs) : Bool :=
  args.summary.isSome && args.summary.getD "" != "" && ctx.guildId.isSome

/-- Exactly one audit record is written and every written record carries the
dry-run tag. -/
def oneDryAudit (l : List Effect) : Prop :=
  (auditRecords l).length = 1 ∧ ∀ r ∈ auditRecords l, r.dryRun = true

/-! ## Concrete instances used by witnesses and counterexamples -/

/-- An oracle on which no `regex` or `fuzzy` rule matches. -/
def noOracle : HeuristicRule → String → Bool := fun _ _ => false

/-- A concrete platform world where every resolution succeeds. -/
def exWorld : World :=
  { now := 100000, members := [7, 8], channels := [42, 55],
    channelGuild := fun _ => some 1, fetchMessageOk := fun _ => true,
    messageInThread := fun _ => false, messageThread := fun _ => none,
    createThreadOk := true, newThreadId := 900, newMessageId := 901,
    messageChannel := fun _ => 42, sendOk := true,
    heuristicExists := fun _ _ _ => false, history := [] }

/-- A concrete event context for a guild message, simulate mode off. -/
def exCtx : Ctx :=
  { guildId := some 1, channelId := some 42, channelIsThread := false,
    messageId := some 500, messageContent := "hello there",
    messageCreatedAt := 99990, recentMessages := [], replyToCreatedAt := none,
    dryRun := false }

/-- The same context with simulate mode on. -/
def exCtxDry : Ctx := { exCtx with dryRun := true }

/-- A first `send_message` tool call. -/
def sendCallA : ToolCall :=
  { name := "send_message", args := some { message := some "first reply" } }

/-- A second `send_message` tool call in the same response. -/
def sendCallB : ToolCall :=
  { name := "send_message", args := some { message := some "second reply" } }

/-- Arguments of a `warn` moderation action against member 7. -/
def warnArgs : ToolArgs :=
  { action := some "warn", targetUserId := some 7, reason := some "be nice" }

/-- A `take_moderation_action` tool call carrying `warnArgs`. -/
def warnCall : ToolCall :=
  { name := "take_moderation_action", args := some warnArgs }

/-- A high-confidence `contains` heuristic rule. -/
def c9RuleHigh : HeuristicRule :=
  { id := 1, guildId := some 1, ruleType := "scam", pattern := "free nitro",
    patternType := "contains", confidence := mkRat 9 10, severity := "high",
    reason := "nitro scams", active := true, useCount := 4,
    falsePositiveCount := 0, version := 0, createdBy := "llm" }

/-- A low-confidence rule on the same pattern, below the 0.7 floor. -/
def c9RuleLow : HeuristicRule :=
  { id := 2, guildId := some 1, ruleType := "scam", pattern := "free nitro",
    patternType := "contains", confidence := mkRat 5 10, severity := "low",
    reason := "weak signal", active := true, useCount := 90,
    falsePositiveCount := 0, version := 0, createdBy := "llm" }

/-- A heuristic table holding both rules. -/
def c9Db : List HeuristicRule := [c9RuleLow, c9RuleHigh]

/-- An active conversation row for author 7 in channel 42, last active at
time 99941 (59 seconds before `exWorld.now`). -/
def convRecent : ConvRow :=
  { conversationId := 3, guildId := 1, channelId := 42, threadId := none,
    participants := [7], lastActivityAt := 99941, active := true }

/-- The same conversation last active 61 seconds before `exWorld.now`. -/
def convStale : ConvRow := { convRecent with lastActivityAt := 99939 }

/-- An active conversation row bound to thread 77. -/
def convThread : ConvRow :=
  { conversationId := 5, guildId := 1, channelId := 42, threadId := some 77,
    participants := [7], lastActivityAt := 99000, active := true }

/-- A plain follow-up message by author 7 in channel 42, no mentions. -/
def msgPlain : Msg :=
  { msgId := 500, authorId := 7, authorIsBot := false, guildId := 1,
    channelId := 42, isThread := false, parentId := 42, mentions := [],
    content := "and another question", createdAt := 100000 }

/-- A message whose content is the exit phrase "stop", mentioning the bot
(user 9). -/
def msgStopMention : Msg :=
  { msgPlain with content := "stop", mentions := [9] }

/-- A message that only says "stop", with no mentions. -/
def msgStop : Msg := { msgPlain with content := "stop" }

/-- A message posted inside thread 77, mentioning the bot. -/
def msgThreadMention : Msg :=
  { msgPlain with
    channelId := 77
    isThread := true
    parentId := 42
    mentions := [9]
    content := "thanks for the help" }

/-- A message posted inside thread 77 by a different author, no mentions. -/
def msgThreadOther : Msg :=
  { msgPlain with
    msgId := 501
    authorId := 8
    channelId := 77
    isThread := true
    parentId := 42
    content := "stop" }

/-- An automation rule binding channel 42 to the unsupported `ban` action
with an empty keyword list. -/
def banRule : AutomationRule :=
  { channelId := 42, triggerSummary := "no posting", action := "ban",
    justification := "channel restricted", active := true, keywords := [] }

/-- An automation rule binding channel 42 to `delete_message`, empty
keywords. -/
def delRule : AutomationRule :=
  { banRule with action := "delete_message" }

/-- An automation rule binding channel 42 to `kick`, empty keywords. -/
def kickRule : AutomationRule :=
  { banRule with action := "kick" }

/-- Bot state with the `ban` automation active on channel 42. -/
def banState : BotState :=
  { botUserId := 9, dryRun := false, proactiveModeration := false,
    automations := [(42, banRule)] }

/-- Bot state with the `kick` automation active on channel 42. -/
def kickState : BotState :=
  { banState with automations := [(42, kickRule)] }

/-- Bot state with the `delete_message` automation active on channel 42. -/
def delState : BotState :=
  { banState with automations := [(42, delRule)] }

/-! # Theorems

First the soundness lemmas of the executable pattern matchers, then one
theorem per claim (with witnesses and counterexamples). -/

theorem containsSub_infix (needle : List Char) :
    ∀ hay, containsSub needle hay = true → needle <:+: hay := by
  intro hay
  induction hay with
  | nil =>
    intro h
    simp only [containsSub, List.isEmpty_iff] at h
    simp [h]
  | cons c rest ih =>
    intro h
    simp only [containsSub, Bool.or_eq_true] at h
    rcases h with h | h
    · exact (List.isPrefixOf_iff_prefix.mp h).isInfix
    · exact (ih h).trans (List.suffix_cons c rest).isInfix

theorem getLast?_append_cases (pre p : List Char) :
    (pre ++ p).getLast? = if p.isEmpty then pre.getLast? else p.getLast? := by
  cases p with
  | nil => simp
  | cons x xs =>
    rw [List.getLast?_append_of_ne_nil _ (by simp)]
    simp

theorem matchAtExact_sound (p t : List Char) (pre : List Char)
    (h : matchAtExact p t pre.getLast? = true) :
    ∃ post, t = p ++ post
      ∧ boundaryOk pre.getLast? ((p ++ post).head?) = true
      ∧ boundaryOk (pre ++ p).getLast? post.head? = true := by
  simp only [matchAtExact, Bool.and_eq_true] at h
  obtain ⟨⟨hpre, hstart⟩, hend⟩ := h
  obtain ⟨post, hpost⟩ := List.isPrefixOf_iff_prefix.mp hpre
  refine ⟨post, hpost.symm, ?_, ?_⟩
  · rw [hpost]; exact hstart
  · rw [getLast?_append_cases]
    rw [← hpost] at hend
    rcases hp : p.isEmpty with _ | _
    · simpa [hp, List.drop_left] using hend
    · simpa [hp, List.drop_left] using hend

theorem searchExact_sound (p : List Char) :
    ∀ (t pre : List Char), searchExact p pre.getLast? t = true →
      occursAtWordBoundary p (pre ++ t) := by
  intro t
  induction t with
  | nil =>
    intro pre h
    simp only [searchExact, Bool.or_eq_true] at h
    rcases h with h | h
    · obtain ⟨post, hpost, hs, he⟩ := matchAtExact_sound p [] pre h
      exact ⟨pre, post, by rw [List.append_assoc, ← hpost], hs, he⟩
    · cases h
  | cons c rest ih =>
    intro pre h
    simp only [searchExact, Bool.or_eq_true] at h
    rcases h with h | h
    · obtain ⟨post, hpost, hs, he⟩ := matchAtExact_sound p (c :: rest) pre h
      exact ⟨pre, post, by rw [List.append_assoc, ← hpost], hs, he⟩
    · have hlast : some c = (pre ++ [c]).getLast? := by
        simp [List.getLast?_concat]
      rw [hlast] at h
      have := ih (pre ++ [c]) h
      simpa [List.append_assoc] using this

theorem exactMatch_sound (pat text : String) (h : exactMatch pat text = true) :
    occursAtWordBoundary (lower pat) (lower text) := by
  have := searchExact_sound (lower pat) (lower text) [] (by simpa [exactMatch] using h)
  simpa using this

theorem containsMatch_sound (pat text : String) (h : containsMatch pat text = true) :
    lower pat <:+: lower text :=
  containsSub_infix (lower pat) (lower text) h

/-- C7: for every heuristic rule and message text, a match under pattern
kind `exact` implies the literal pattern occurs in the text at a word
boundary, case-insensitively (both sides lower-cased); a match under
`contains` implies plain case-insensitive substring presence. -/
theorem c7_pattern_match_soundness (oracle : HeuristicRule → String → Bool)
    (r : HeuristicRule) (content : String) :
    (r.patternType = "exact" → matchesRule oracle content r = true →
      occursAtWordBoundary (lower r.pattern) (lower content)) ∧
    (r.patternType = "contains" → matchesRule oracle content r = true →
      lower r.pattern <:+: lower content) := by
  constructor
  · intro hk hm
    apply exactMatch_sound
    simpa [matchesRule, hk] using hm
  · intro hk hm
    apply containsMatch_sound
    simpa [matchesRule, hk] using hm

/-- Witness for C7 at concrete inputs: the `exact` rule on "scam" matching
"that is a SCAM link", and the `contains` rule on "free nitro" matching
"claim your FREE NITRO now". -/
theorem c7_pattern_match_soundness_witness :
    occursAtWordBoundary (lower "scam") (lower "that is a SCAM link") ∧
    lower "free nitro" <:+: lower "claim your FREE NITRO now" := by
  constructor
  · exact (c7_pattern_match_soundness noOracle
      { c9RuleHigh with pattern := "scam", patternType := "exact" }
      "that is a SCAM link").1 rfl (by decide)
  · exact (c7_pattern_match_soundness noOracle c9RuleHigh
      "claim your FREE NITRO now").2 rfl (by decide)

theorem find_active_single (conv : ConvRow) (now : Int) (g ch u : Nat)
    (hg : conv.guildId = g) (hc : conv.channelId = ch) (ht : conv.threadId = none)
    (ha : conv.active = true) (hp : u ∈ conv.participants) :
    find_active_conversation [conv] now g ch u none =
      if now - 1800 < conv.lastActivityAt then some conv else none := by
  by_cases hwin : now - 1800 < conv.lastActivityAt <;>
    simp [find_active_conversation, selectLatest, hg, hc, ht, ha, hp, hwin]

/-- C3: for a message by the same author in the same channel, no mention and
no exit phrase, with the author's active conversation stored: arriving more
than 60 seconds after the conversation's last activity yields
`should_respond = false`; arriving 59 seconds after yields `true` with that
conversation's id. -/
theorem c3_conversation_window (now : Int) (botUserId : Nat) (msg : Msg)
    (conv : ConvRow)
    (hbot : msg.authorIsBot = false)
    (hmentions : msg.mentions = [])
    (hthread : msg.isThread = false)
    (hguild : conv.guildId = msg.guildId)
    (hchan : conv.channelId = msg.channelId)
    (hconvthread : conv.threadId = none)
    (hactive : conv.active = true)
    (hpart : msg.authorId ∈ conv.participants)
    (hnoexit : contains_exit_keyword msg.content = false) :
    (60 < now - conv.lastActivityAt →
      should_respond [conv] now botUserId msg false = ⟨false, none, none⟩) ∧
    (now - conv.lastActivityAt = 59 →
      should_respond [conv] now botUserId msg false =
        ⟨true, some conv.conversationId, none⟩) := by
  have hfind := find_active_single conv now msg.guildId msg.channelId msg.authorId
    hguild hchan hconvthread hactive hpart
  constructor
  · intro hlate
    by_cases hwin : now - 1800 < conv.lastActivityAt
    · simp [should_respond, hbot, hthread, hmentions, hfind, hwin, hlate]
    · simp [should_respond, hbot, hthread, hmentions, hfind, hwin]
  · intro h59
    have hwin : now - 1800 < conv.lastActivityAt := by omega
    have hnotlate : ¬(60 < now - conv.lastActivityAt) := by omega
    simp [should_respond, hbot, hthread, hmentions, hfind, hwin, hnotlate, hnoexit]

/-- Witness for C3: author 7's conversation in channel 42, 59 seconds old at
the next message, is continued; 61 seconds old, it is not. -/
theorem c3_conversation_window_witness :
    should_respond [convRecent] 100000 9 msgPlain false = ⟨true, some 3, none⟩ ∧
    should_respond [convStale] 100000 9 msgPlain false = ⟨false, none, none⟩ := by
  constructor
  · exact (c3_conversation_window 100000 9 msgPlain convRecent rfl rfl rfl rfl rfl rfl
      rfl (by decide) (by decide)).2 (by decide)
  · exact (c3_conversation_window 100000 9 msgPlain convStale rfl rfl rfl rfl rfl rfl
      rfl (by decide) (by decide)).1 (by decide)

/-- Counterexample to C4 as stated: the message "stop" carries an exit
phrase, author 7 has an active conversation 59 seconds old, but because the
message also mentions the bot, `should_respond` returns true (with no
conversation) and the conversation is not closed. -/
theorem c4_exit_phrase_counterexample :
    contains_exit_keyword msgStopMention.content = true ∧
    should_respond [convRecent] 100000 9 msgStopMention true = ⟨true, none, none⟩ := by
  constructor
  · decide
  · rfl

/-- C4 as amended: an exit phrase closes the active conversation and
suppresses the response, provided the bot is not mentioned, the message is
not in a thread, no other human user is mentioned, and the conversation's
last activity is within the 60-second window (a bot mention pre-empts the
exit check and responds instead). -/
theorem c4_exit_phrase_amended (db : List ConvRow) (now : Int) (botUserId : Nat)
    (msg : Msg) (conv : ConvRow)
    (hbot : msg.authorIsBot = false)
    (hthread : msg.isThread = false)
    (hothers : msg.mentions.filter (fun u => u != botUserId && u != msg.authorId) = [])
    (hfound : find_active_conversation db now msg.guildId msg.channelId msg.authorId none
      = some conv)
    (hrecent : ¬(60 < now - conv.lastActivityAt))
    (hexit : contains_exit_keyword msg.content = true) :
    should_respond db now botUserId msg false =
      ⟨false, none, some conv.conversationId⟩ := by
  simp [should_respond, hbot, hthread, hothers, hfound, hrecent, hexit]

/-- Witness for C4 as amended: "stop" with no mentions closes conversation 3
and suppresses the response. -/
theorem c4_exit_phrase_amended_witness :
    should_respond [convRecent] 100000 9 msgStop false = ⟨false, none, some 3⟩ :=
  c4_exit_phrase_amended [convRecent] 100000 9 msgStop convRecent rfl rfl rfl
    (by decide) (by decide) (by decide)

/-- Counterexample to C10 as stated: a message inside thread 77, whose
active conversation is number 5, mentions the bot; `should_respond` returns
true but with no conversation id, so the thread's conversation is not the
one continued. -/
theorem c10_thread_counterexample :
    find_active_conversation [convThread] 100000 1 42 7 (some 77) = some convThread ∧
    convThread.conversationId = 5 ∧
    should_respond [convThread] 100000 9 msgThreadMention true = ⟨true, none, none⟩ := by
  refine ⟨by decide, rfl, rfl⟩

/-- C10 as amended: a non-bot message inside a thread with an active
conversation continues that conversation for any author, with no recency
window, exit-phrase or other-mention check — provided the message does not
mention the bot (a bot mention still responds, but without the conversation
id). -/
theorem c10_thread_continuation_amended (db : List ConvRow) (now : Int)
    (botUserId : Nat) (msg : Msg) (conv : ConvRow)
    (hbot : msg.authorIsBot = false)
    (hthread : msg.isThread = true)
    (hfound : find_active_conversation db now msg.guildId msg.parentId msg.authorId
      (some msg.channelId) = some conv) :
    should_respond db now botUserId msg false =
      ⟨true, some conv.conversationId, none⟩ := by
  simp [should_respond, hbot, hthread, hfound]

/-- Witness for C10 as amended: author 8's message in thread 77 — carrying
an exit phrase and arriving 1000 seconds after the last activity — still
continues conversation 5. -/
theorem c10_thread_continuation_amended_witness :
    should_respond [convThread] 100000 9 msgThreadOther false = ⟨true, some 5, none⟩ :=
  c10_thread_continuation_amended [convThread] 100000 9 msgThreadOther convThread
    rfl rfl (by decide)

/-- Counterexample to C5 as stated: inserting `(guild 1, "free nitro",
contains)` at confidence 0.8/severity critical and re-inserting at 0.9/low
leaves one rule whose severity is "low", not the maximum "critical" of the
two attempts. -/
theorem c5_heuristic_upsert_counterexample :
    (insert_heuristic_rule
      (insert_heuristic_rule [] 1 (some 1) "scam" "free nitro" "contains"
        (mkRat 8 10) "critical" "why").table
      2 (some 1) "scam" "free nitro" "contains" (mkRat 9 10) "low" "why").table.map
        HeuristicRule.severity = ["low"] ∧
    maxSeverity "critical" "low" = "critical" ∧ ("low" : String) ≠ "critical" := by
  refine ⟨by decide, by decide, by decide⟩

theorem insert_existing_key (table : List HeuristicRule) (nextId : Nat)
    (guildId : Option Nat) (rt pattern pt : String) (conf : Rat) (sev : String)
    (reason existing : _)
    (hfind : table.find? (heuristicKeyMatches guildId pattern pt) = some existing) :
    (insert_heuristic_rule table nextId guildId rt pattern pt conf sev reason).isNew
      = false ∧
    (insert_heuristic_rule table nextId guildId rt pattern pt conf sev
      reason).table.length = table.length ∧
    ((insert_heuristic_rule table nextId guildId rt pattern pt conf sev
      reason).table.filter (heuristicKeyMatches guildId pattern pt)).length
      = (table.filter (heuristicKeyMatches guildId pattern pt)).length ∧
    ∃ r', (insert_heuristic_rule table nextId guildId rt pattern pt conf sev
        reason).table.find? (heuristicKeyMatches guildId pattern pt) = some r' ∧
      r'.id = existing.id ∧
      r'.confidence = max existing.confidence conf ∧
      r'.severity = (if existing.confidence < conf then sev else existing.severity) := by
  simp only [insert_heuristic_rule, hfind]
  by_cases hcond : (decide (existing.confidence < conf)
      || (existing.confidence == conf && existing.severity != sev)) = true
  · simp only [hcond, if_true]
    have hfun :
        (heuristicKeyMatches guildId pattern pt ∘ fun r : HeuristicRule =>
          if (r.id == existing.id) = true then
            { r with
              confidence := max r.confidence conf
              severity := if r.confidence < conf then sev else r.severity
              version := r.version + 1 }
          else r)
        = heuristicKeyMatches guildId pattern pt := by
      funext r
      by_cases h : r.id = existing.id <;> simp [h, heuristicKeyMatches]
    refine ⟨by trivial, by simp, ?_, ?_⟩
    · rw [List.filter_map, hfun]
      simp
    · rw [List.find?_map, hfun, hfind]
      refine ⟨_, rfl, ?_, ?_, ?_⟩ <;> simp
  · simp only [hcond, if_false]
    refine ⟨rfl, rfl, rfl, existing, hfind, rfl, ?_, ?_⟩
    · have hle : conf ≤ existing.confidence := by
        rcases le_or_lt conf existing.confidence with h | h
        · exact h
        · exact absurd (by simp [h]) hcond
      exact (max_eq_left hle).symm
    · have hnl : ¬existing.confidence < conf := by
        intro h
        exact hcond (by simp [h])
      simp [hnl]

/-- C5 as amended: re-insertion on an existing `(scope, pattern,
pattern_kind)` key never adds a row; the stored confidence becomes the max of
old and new, while the stored severity becomes the new severity exactly when
the new confidence is strictly higher, and is unchanged otherwise.  Inserting
the same key twice from scratch yields exactly one stored rule whose
confidence is the max of the two attempts. -/
theorem c5_heuristic_upsert_amended (table : List HeuristicRule) (nextId : Nat)
    (guildId : Option Nat) (rt pattern pt : String) (conf : Rat) (sev : String)
    (reason : String) :
    (∀ existing,
      table.find? (heuristicKeyMatches guildId pattern pt) = some existing →
      let res := insert_heuristic_rule table nextId guildId rt pattern pt conf sev reason
      res.isNew = false ∧ res.table.length = table.length ∧
      ∃ r', res.table.find? (heuristicKeyMatches guildId pattern pt) = some r' ∧
        r'.id = existing.id ∧
        r'.confidence = max existing.confidence conf ∧
        r'.severity = (if existing.confidence < conf then sev else existing.severity)) ∧
    (table.find? (heuristicKeyMatches guildId pattern pt) = none →
      ∀ (nextId2 : Nat) (conf2 : Rat) (sev2 : String),
      let res1 := insert_heuristic_rule table nextId guildId rt pattern pt conf sev reason
      let res2 := insert_heuristic_rule res1.table nextId2 guildId rt pattern pt
        conf2 sev2 reason
      res1.isNew = true ∧ res2.isNew = false ∧
      res2.table.length = table.length + 1 ∧
      (res2.table.filter (heuristicKeyMatches guildId pattern pt)).length = 1 ∧
      ∃ r', res2.table.find? (heuristicKeyMatches guildId pattern pt) = some r' ∧
        r'.confidence = max conf conf2) := by
  constructor
  · intro existing hfind
    have h := insert_existing_key table nextId guildId rt pattern pt conf sev
      reason existing hfind
    exact ⟨h.1, h.2.1, h.2.2.2⟩
  · intro hnone nextId2 conf2 sev2
    have hres1 : insert_heuristic_rule table nextId guildId rt pattern pt conf sev reason
        = { table := table ++
              [{ id := nextId, guildId := guildId, ruleType := rt, pattern := pattern,
                 patternType := pt, confidence := conf, severity := sev,
                 reason := reason, active := true, useCount := 0,
                 falsePositiveCount := 0, version := 0, createdBy := "llm" }],
            ruleId := nextId, isNew := true } := by
      simp only [insert_heuristic_rule, hnone]
    have hnewkey : heuristicKeyMatches guildId pattern pt
        { id := nextId, guildId := guildId, ruleType := rt, pattern := pattern,
          patternType := pt, confidence := conf, severity := sev, reason := reason,
          active := true, useCount := 0, falsePositiveCount := 0, version := 0,
          createdBy := "llm" } = true := by
      simp [heuristicKeyMatches]
    have hfilter0 : table.filter (heuristicKeyMatches guildId pattern pt) = [] :=
      List.filter_eq_nil_iff.mpr (List.find?_eq_none.mp hnone)
    have hfind1 :
        (insert_heuristic_rule table nextId guildId rt pattern pt conf sev
          reason).table.find? (heuristicKeyMatches guildId pattern pt)
        = some { id := nextId, guildId := guildId, ruleType := rt, pattern := pattern,
                 patternType := pt, confidence := conf, severity := sev,
                 reason := reason, active := true, useCount := 0,
                 falsePositiveCount := 0, version := 0, createdBy := "llm" } := by
      rw [hres1]
      simp only [List.find?_append, hnone]
      simp [hnewkey]
    have h2 := insert_existing_key
      (insert_heuristic_rule table nextId guildId rt pattern pt conf sev reason).table
      nextId2 guildId rt pattern pt conf2 sev2 reason _ hfind1
    refine ⟨by rw [hres1], h2.1, ?_, ?_, ?_⟩
    · rw [h2.2.1, hres1]
      simp
    · rw [h2.2.2.1, hres1]
      simp [hfilter0, hnewkey]
    · obtain ⟨r', hr', _, hconf, _⟩ := h2.2.2.2
      exact ⟨r', hr', hconf⟩

/-- Witness for C5 as amended: inserting `(guild 1, "free nitro", contains)`
at confidence 0.8 and again at 0.9 yields exactly one stored rule, whose
confidence is the max of the two attempts. -/
theorem c5_heuristic_upsert_amended_witness :
    (insert_heuristic_rule [] 1 (some 1) "scam" "free nitro" "contains"
      (mkRat 8 10) "critical" "why").isNew = true ∧
    ((insert_heuristic_rule
        (insert_heuristic_rule [] 1 (some 1) "scam" "free nitro" "contains"
          (mkRat 8 10) "critical" "why").table
        2 (some 1) "scam" "free nitro" "contains" (mkRat 9 10) "low" "why").table.filter
          (heuristicKeyMatches (some 1) "free nitro" "contains")).length = 1 ∧
    ∃ r', (insert_heuristic_rule
        (insert_heuristic_rule [] 1 (some 1) "scam" "free nitro" "contains"
          (mkRat 8 10) "critical" "why").table
        2 (some 1) "scam" "free nitro" "contains" (mkRat 9 10) "low" "why").table.find?
          (heuristicKeyMatches (some 1) "free nitro" "contains") = some r' ∧
      r'.confidence = max (mkRat 8 10) (mkRat 9 10) := by
  have h := (c5_heuristic_upsert_amended [] 1 (some 1) "scam" "free nitro" "contains"
    (mkRat 8 10) "critical" "why").2 (by decide) 2 (mkRat 9 10) "low"
  exact ⟨h.1, h.2.2.2.1, h.2.2.2.2⟩

theorem tool_take_no_increment (world : World) (ctx : Ctx) (args : ToolArgs) :
    ∀ e ∈ tool_take_moderation_action world ctx args, ∀ i,
      e ≠ Effect.storeIncrementUsage i := by
  intro e he i hcontra
  subst hcontra
  unfold tool_take_moderation_action at he
  repeat' split at he
  all_goals by_cases hdry : ctx.dryRun = true <;> simp_all [logAction]

theorem resolveSendTarget_effects (world : World) (chan : Nat)
    (referenceMessage : Option Nat) (replyInThread : Bool) :
    (resolveSendTarget world chan referenceMessage replyInThread).2 = [] ∨
    ∃ b, (resolveSendTarget world chan referenceMessage replyInThread).2
      = [Effect.platformCreateThread b] := by
  unfold resolveSendTarget
  repeat' split
  all_goals simp

theorem sendRecords_effects (world : World) (conversationId : Option Nat)
    (sendChannel : Nat) :
    ∀ e ∈ sendRecords world conversationId sendChannel,
      e = Effect.storeAddConvMessage (conversationId.getD 0) world.newMessageId true ∨
      e = Effect.storeRecordActivity sendChannel := by
  intro e he
  unfold sendRecords at he
  repeat' split at he
  all_goals simp_all

theorem tool_send_shape (world : World) (ctx : Ctx) (args : ToolArgs)
    (conversationId : Option Nat) (useThread : Bool) :
    tool_send_message world ctx args conversationId useThread = [] ∨
    (∃ g chan content,
      tool_send_message world ctx args conversationId useThread
        = [logAction g "message" "[DRY-RUN] Would post in channel."
            (some chan) none none none true] ∧ ctx.dryRun = true ∧
      resolveSendChannel world ctx args = some chan ∧
      args.message = some content ∧ content ≠ "") ∨
    (∃ chan referenceMessage replyInThread sendChannel content,
      resolveSendChannel world ctx args = some chan ∧
      args.message = some content ∧ content ≠ "" ∧ ctx.dryRun = false ∧
      sendChannel = (resolveSendTarget world chan referenceMessage replyInThread).1 ∧
      tool_send_message world ctx args conversationId useThread
        = (resolveSendTarget world chan referenceMessage replyInThread).2
          ++ [Effect.platformSend sendChannel content]
          ++ sendRecords world conversationId sendChannel) := by
  rcases hmsg : args.message with _ | content
  · left
    unfold tool_send_message
    simp [hmsg]
  · by_cases hempty : content = ""
    · left
      unfold tool_send_message
      simp [hmsg, hempty]
    · rcases hchan : resolveSendChannel world ctx args with _ | chan
      · left
        unfold tool_send_message
        simp [hmsg, hempty, hchan]
      · rcases hguild : (match ctx.guildId with
            | some g => some g
            | none => world.channelGuild chan) with _ | g
        · left
          unfold tool_send_message
          simp only [hmsg, hempty, hchan, hguild]
          simp [hempty]
        · by_cases hdry : ctx.dryRun = true
          · refine Or.inr (Or.inl ⟨g, chan, content, ?_, hdry, rfl, rfl, hempty⟩)
            unfold tool_send_message
            simp only [hmsg, hempty, hchan, hguild, hdry]
            simp [hempty]
          · refine Or.inr (Or.inr ⟨chan, resolveReference world ctx args,
              chooseReplyInThread world ctx args useThread chan
                (resolveReference world ctx args),
              _, content, rfl, rfl, hempty, by simpa using hdry, rfl, ?_⟩)
            unfold tool_send_message
            simp only [hmsg, hempty, hchan, hguild]
            simp [hempty, hdry]

theorem tool_send_no_increment (world : World) (ctx : Ctx) (args : ToolArgs)
    (conversationId : Option Nat) (useThread : Bool) :
    ∀ e ∈ tool_send_message world ctx args conversationId useThread, ∀ i,
      e ≠ Effect.storeIncrementUsage i := by
  intro e he i hcontra
  subst hcontra
  rcases tool_send_shape world ctx args conversationId useThread with h | h | h
  · rw [h] at he
    cases he
  · obtain ⟨g, chan, content, heq, -⟩ := h
    rw [heq] at he
    simp [logAction] at he
  · obtain ⟨chan, ref, rit, sendChannel, content, -, -, -, -, -, heq⟩ := h
    rw [heq] at he
    rcases List.mem_append.mp he with he | he
    · rcases List.mem_append.mp he with he | he
      · rcases resolveSendTarget_effects world chan ref rit with h2 | ⟨b, h2⟩ <;>
          rw [h2] at he <;> simp_all
      · simp_all
    · rcases sendRecords_effects world conversationId sendChannel _ he with h2 | h2 <;>
        simp_all

theorem tool_escalate_no_increment (ctx : Ctx) (args : ToolArgs) :
    ∀ e ∈ tool_escalate ctx args, ∀ i, e ≠ Effect.storeIncrementUsage i := by
  intro e he i hcontra
  subst hcontra
  unfold tool_escalate at he
  repeat' split at he
  all_goals simp_all [logAction]

theorem tool_suggest_no_increment (world : World) (ctx : Ctx) (args : ToolArgs) :
    ∀ e ∈ tool_suggest_heuristic world ctx args, ∀ i,
      e ≠ Effect.storeIncrementUsage i := by
  intro e he i hcontra
  subst hcontra
  unfold tool_suggest_heuristic at he
  repeat' split at he
  all_goals simp_all [logAction]

theorem execute_no_increment (world : World) (ctx : Ctx) (call : ToolCall)
    (conversationId : Option Nat) (useThread : Bool) :
    ∀ e ∈ execute_tool_call world ctx call conversationId useThread, ∀ i,
      e ≠ Effect.storeIncrementUsage i := by
  intro e he i
  unfold execute_tool_call at he
  split at he
  · cases he
  · rename_i args heq
    split at he
    · exact tool_take_no_increment world ctx args e he i
    · split at he
      · exact tool_send_no_increment world ctx args conversationId useThread e he i
      · split at he
        · exact tool_escalate_no_increment ctx args e he i
        · split at he
          · exact tool_suggest_no_increment world ctx args e he i
          · cases he

theorem heuristic_detection_no_increment (world : World) (ctx : Ctx) (msgId : Nat)
    (llm : LLMResult) :
    ∀ e ∈ handle_heuristic_detection world ctx msgId llm, ∀ i,
      e ≠ Effect.storeIncrementUsage i := by
  intro e he i
  unfold handle_heuristic_detection at he
  rcases List.mem_append.mp he with h | h
  · split at h <;> simp_all
  · split at h
    · obtain ⟨c, hc, hec⟩ := List.mem_flatMap.mp h
      exact execute_no_increment world ctx c none false e hec i
    · cases h

theorem mem_fetch_active_heuristics (heurDb : List HeuristicRule) (guildId : Nat)
    (minConf : Rat) (r : HeuristicRule) :
    r ∈ fetch_active_heuristics heurDb guildId minConf ↔
      r ∈ heurDb ∧ (r.guildId = some guildId ∨ r.guildId = none) ∧
        r.active = true ∧ minConf ≤ r.confidence := by
  unfold fetch_active_heuristics
  rw [(List.perm_insertionSort heuristicOrder _).mem_iff, List.mem_filter]
  simp [and_assoc]

/-- C9: proactive checking considers only active guild-scoped or global
rules at confidence ≥ 0.7, ordered by descending confidence then use count;
the surfaced rule is the first match of that ordered list, and exactly that
rule's use count is incremented — a lower-confidence rule is never surfaced
and never incremented. -/
theorem c9_proactive_check (world : World) (ctx : Ctx)
    (heurDb : List HeuristicRule) (guildId msgId : Nat) (content : String)
    (oracle : HeuristicRule → String → Bool) (llm : LLMResult)
    (hids : ∀ a ∈ heurDb, ∀ b ∈ heurDb, a.id = b.id → a = b) :
    List.Sorted heuristicOrder (fetch_active_heuristics heurDb guildId (mkRat 7 10)) ∧
    (check_message_for_violations world ctx heurDb guildId msgId content oracle
      llm).detected
      = (fetch_active_heuristics heurDb guildId (mkRat 7 10)).find?
          (matchesRule oracle content) ∧
    (∀ r, (check_message_for_violations world ctx heurDb guildId msgId content oracle
        llm).detected = some r →
      r.active = true ∧ (r.guildId = some guildId ∨ r.guildId = none) ∧
      mkRat 7 10 ≤ r.confidence ∧
      (∀ i, Effect.storeIncrementUsage i ∈
        (check_message_for_violations world ctx heurDb guildId msgId content oracle
          llm).effects ↔ i = r.id)) ∧
    ((check_message_for_violations world ctx heurDb guildId msgId content oracle
        llm).detected = none →
      (check_message_for_violations world ctx heurDb guildId msgId content oracle
        llm).effects = []) ∧
    (∀ r ∈ heurDb, r.confidence < mkRat 7 10 →
      (check_message_for_violations world ctx heurDb guildId msgId content oracle
        llm).detected ≠ some r ∧
      Effect.storeIncrementUsage r.id ∉
        (check_message_for_violations world ctx heurDb guildId msgId content oracle
          llm).effects) := by
  have hsorted := List.sorted_insertionSort heuristicOrder
    (heurDb.filter fun r =>
      (r.guildId == some guildId || r.guildId == none) && r.active
        && decide (mkRat 7 10 ≤ r.confidence))
  have hdet : (check_message_for_violations world ctx heurDb guildId msgId content
      oracle llm).detected
      = (fetch_active_heuristics heurDb guildId (mkRat 7 10)).find?
          (matchesRule oracle content) := by
    unfold check_message_for_violations
    by_cases hE : (fetch_active_heuristics heurDb guildId (mkRat 7 10)).isEmpty = true
    · rw [List.isEmpty_iff] at hE
      simp [hE]
    · simp only [hE, if_false]
      rcases hf : (fetch_active_heuristics heurDb guildId (mkRat 7 10)).find?
          (matchesRule oracle content) with _ | r <;> simp [hf]
  have heffects : ∀ r, (fetch_active_heuristics heurDb guildId (mkRat 7 10)).find?
        (matchesRule oracle content) = some r →
      (check_message_for_violations world ctx heurDb guildId msgId content oracle
        llm).effects
        = Effect.storeIncrementUsage r.id
            :: handle_heuristic_detection world ctx msgId llm := by
    intro r hf
    unfold check_message_for_violations
    have hE : (fetch_active_heuristics heurDb guildId (mkRat 7 10)).isEmpty = false := by
      rcases hE : (fetch_active_heuristics heurDb guildId (mkRat 7 10)).isEmpty with _|_
      · rfl
      · rw [List.isEmpty_iff] at hE
        rw [hE] at hf
        cases hf
    simp [hE, hf]
  refine ⟨hsorted, hdet, ?_, ?_, ?_⟩
  · intro r hr
    rw [hdet] at hr
    have hmem := List.mem_of_find?_eq_some hr
    rw [mem_fetch_active_heuristics] at hmem
    obtain ⟨hdb, hscope, hact, hconf⟩ := hmem
    refine ⟨hact, hscope, hconf, ?_⟩
    intro i
    rw [heffects r hr]
    constructor
    · intro hi
      rcases List.mem_cons.mp hi with h | h
      · cases h
        rfl
      · exact absurd rfl (heuristic_detection_no_increment world ctx msgId llm _ h i)
    · intro hi
      subst hi
      exact List.mem_cons_self _ _
  · intro hnone
    rw [hdet] at hnone
    unfold check_message_for_violations
    by_cases hE : (fetch_active_heuristics heurDb guildId (mkRat 7 10)).isEmpty = true
    · simp [hE]
    · simp [hE, hnone]
  · intro r hrdb hlow
    rcases hf : (fetch_active_heuristics heurDb guildId (mkRat 7 10)).find?
        (matchesRule oracle content) with _ | r'
    · constructor
      · rw [hdet, hf]
        simp
      · unfold check_message_for_violations
        by_cases hE : (fetch_active_heuristics heurDb guildId (mkRat 7 10)).isEmpty = true
        · simp [hE]
        · simp [hE, hf]
    · have hmem := List.mem_of_find?_eq_some hf
      rw [mem_fetch_active_heuristics] at hmem
      obtain ⟨hdb', _, _, hconf'⟩ := hmem
      have hne : r ≠ r' := by
        intro hcontra
        subst hcontra
        exact absurd hconf' (not_le.mpr hlow)
      constructor
      · rw [hdet, hf]
        intro hcontra
        exact hne (Option.some_injective _ hcontra).symm
      · rw [heffects r' hf]
        intro hcontra
        rcases List.mem_cons.mp hcontra with h | h
        · have hid : r.id = r'.id := by
            injection h
          exact hne (hids r hrdb r' hdb' hid)
        · exact absurd rfl
            (heuristic_detection_no_increment world ctx msgId llm _ h r.id)

/-- Witness for C9: with a 0.9-confidence and a 0.5-confidence rule on
"free nitro" stored, the check on "claim your free nitro now" surfaces the
first match of the ordered fetch, and exactly rule 1 (the
high-confidence one) is incremented. -/
theorem c9_proactive_check_witness :
    (check_message_for_violations exWorld exCtx c9Db 1 500
      "claim your free nitro now" noOracle (LLMResult.ok [])).detected
      = (fetch_active_heuristics c9Db 1 (mkRat 7 10)).find?
          (matchesRule noOracle "claim your free nitro now") ∧
    (∀ i, Effect.storeIncrementUsage i ∈
      (check_message_for_violations exWorld exCtx c9Db 1 500
        "claim your free nitro now" noOracle (LLMResult.ok [])).effects ↔ i = 1) := by
  have h := c9_proactive_check exWorld exCtx c9Db 1 500 "claim your free nitro now"
    noOracle (LLMResult.ok []) (by decide)
  refine ⟨h.2.1, ?_⟩
  have hd := h.2.2.1 c9RuleHigh (by decide)
  exact hd.2.2.2

theorem sendCount_append (a b : List Effect) :
    sendCount (a ++ b) = sendCount a + sendCount b := by
  unfold sendCount
  rw [List.filter_append, List.length_append]

theorem sendCount_eq_zero_iff (l : List Effect) :
    sendCount l = 0 ↔ ∀ e ∈ l, e.isSend = false := by
  unfold sendCount
  rw [List.length_eq_zero, List.filter_eq_nil_iff]
  simp

theorem tool_take_no_send (world : World) (ctx : Ctx) (args : ToolArgs) :
    sendCount (tool_take_moderation_action world ctx args) = 0 := by
  rw [sendCount_eq_zero_iff]
  intro e he
  unfold tool_take_moderation_action at he
  repeat' split at he
  all_goals by_cases hdry : ctx.dryRun = true <;>
    simp_all [logAction, Effect.isSend]
  all_goals rcases he with rfl | rfl <;> rfl

theorem tool_escalate_no_send (ctx : Ctx) (args : ToolArgs) :
    sendCount (tool_escalate ctx args) = 0 := by
  rw [sendCount_eq_zero_iff]
  intro e he
  unfold tool_escalate at he
  repeat' split at he
  all_goals simp_all [logAction, Effect.isSend]

theorem tool_suggest_no_send (world : World) (ctx : Ctx) (args : ToolArgs) :
    sendCount (tool_suggest_heuristic world ctx args) = 0 := by
  rw [sendCount_eq_zero_iff]
  intro e he
  unfold tool_suggest_heuristic at he
  repeat' split at he
  all_goals simp_all [logAction, Effect.isSend]
  all_goals rcases he with rfl | rfl <;> rfl

theorem resolveSendTarget_no_send (world : World) (chan : Nat)
    (referenceMessage : Option Nat) (replyInThread : Bool) :
    sendCount (resolveSendTarget world chan referenceMessage replyInThread).2 = 0 := by
  rcases resolveSendTarget_effects world chan referenceMessage replyInThread with
    h | ⟨b, h⟩ <;> rw [h] <;> rfl

theorem sendRecords_no_send (world : World) (conversationId : Option Nat)
    (sendChannel : Nat) :
    sendCount (sendRecords world conversationId sendChannel) = 0 := by
  rw [sendCount_eq_zero_iff]
  intro e he
  rcases sendRecords_effects world conversationId sendChannel e he with h | h <;>
    simp [h, Effect.isSend]

theorem tool_send_sendCount_le_one (world : World) (ctx : Ctx) (args : ToolArgs)
    (conversationId : Option Nat) (useThread : Bool) :
    sendCount (tool_send_message world ctx args conversationId useThread) ≤ 1 := by
  rcases tool_send_shape world ctx args conversationId useThread with
    h | ⟨g, chan, content, h, -⟩ | ⟨chan, ref, rit, sc, content, -, -, -, -, -, h⟩
  · rw [h]
    exact Nat.zero_le 1
  · rw [h]
    simp [sendCount, logAction, Effect.isSend]
  · rw [h, sendCount_append, sendCount_append, resolveSendTarget_no_send,
      sendRecords_no_send]
    simp [sendCount, Effect.isSend]

theorem tool_send_sendCount_eq_one (world : World) (ctx : Ctx) (args : ToolArgs)
    (conversationId : Option Nat) (useThread : Bool)
    (hdry : ctx.dryRun = false) (hvalid : validSend world ctx args = true) :
    sendCount (tool_send_message world ctx args conversationId useThread) = 1 := by
  unfold validSend at hvalid
  rcases hmsg : args.message with _ | content
  · rw [hmsg] at hvalid
    simp at hvalid
  · rw [hmsg] at hvalid
    by_cases hempty : content = ""
    · simp [hempty] at hvalid
    · rcases hchan : resolveSendChannel world ctx args with _ | chan
      · rw [hchan] at hvalid
        simp [hempty] at hvalid
      · rw [hchan] at hvalid
        simp only [Option.isSome_some, Option.getD_some, Bool.true_and] at hvalid
        have hguild : (match ctx.guildId with
            | some g => some g
            | none => world.channelGuild chan)
            = ctx.guildId.orElse fun _ => world.channelGuild chan := by
          rcases ctx.guildId <;> rfl
        rcases horelse : ctx.guildId.orElse (fun _ => world.channelGuild chan)
          with _ | g
        · rw [horelse] at hvalid
          simp [hempty] at hvalid
        · unfold tool_send_message
          rw [hmsg]
          simp only [if_neg hempty, hchan, hguild, horelse, hdry]
          simp only [Bool.false_eq_true, if_false]
          rw [sendCount_append, sendCount_append, resolveSendTarget_no_send,
            sendRecords_no_send]
          simp [sendCount, Effect.isSend]

theorem execute_sendCount_le_one (world : World) (ctx : Ctx) (call : ToolCall)
    (conversationId : Option Nat) (useThread : Bool) :
    sendCount (execute_tool_call world ctx call conversationId useThread) ≤ 1 := by
  unfold execute_tool_call
  split
  · exact Nat.zero_le 1
  · split
    · rw [tool_take_no_send]
      exact Nat.zero_le 1
    · split
      · exact tool_send_sendCount_le_one world ctx _ conversationId useThread
      · split
        · rw [tool_escalate_no_send]
          exact Nat.zero_le 1
        · split
          · rw [tool_suggest_no_send]
            exact Nat.zero_le 1
          · exact Nat.zero_le 1

theorem execute_nonsend_name (world : World) (ctx : Ctx) (call : ToolCall)
    (conversationId : Option Nat) (useThread : Bool)
    (hname : call.name ≠ "send_message") :
    sendCount (execute_tool_call world ctx call conversationId useThread) = 0 := by
  unfold execute_tool_call
  split
  · rfl
  · split
    · exact tool_take_no_send world ctx _
    · repeat' split
      all_goals
        first
        | exact absurd (by assumption) hname
        | exact tool_escalate_no_send ctx _
        | exact tool_suggest_no_send world ctx _
        | rfl

theorem dedup_seen_no_send (world : World) (ctx : Ctx)
    (conversationId : Option Nat) (useThread : Bool) :
    ∀ calls : List ToolCall,
      sendCount ((dedupSendCalls calls true).flatMap fun c =>
        execute_tool_call world ctx c conversationId useThread) = 0 := by
  intro calls
  induction calls with
  | nil => rfl
  | cons c rest ih =>
    unfold dedupSendCalls
    by_cases hname : c.name = "send_message"
    · simp only [hname, if_true, if_pos rfl]
      exact ih
    · simp only [if_neg hname]
      rw [List.flatMap_cons, sendCount_append, ih,
        execute_nonsend_name world ctx c conversationId useThread hname]

theorem dedup_first_send (world : World) (ctx : Ctx)
    (conversationId : Option Nat) (useThread : Bool) :
    ∀ (calls : List ToolCall) (c0 : ToolCall),
      calls.find? (fun c => c.name == "send_message") = some c0 →
      sendCount ((dedupSendCalls calls false).flatMap fun c =>
          execute_tool_call world ctx c conversationId useThread)
        = sendCount (execute_tool_call world ctx c0 conversationId useThread) := by
  intro calls
  induction calls with
  | nil => intro c0 h; cases h
  | cons c rest ih =>
    intro c0 h
    by_cases hname : c.name = "send_message"
    · have hc0 : c0 = c := by
        rw [List.find?_cons_of_pos] at h
        · exact (Option.some_injective _ h).symm
        · simp [hname]
      subst hc0
      unfold dedupSendCalls
      simp only [hname, if_true, Bool.false_eq_true, if_false]
      rw [List.flatMap_cons, sendCount_append,
        dedup_seen_no_send world ctx conversationId useThread rest, Nat.add_zero]
    · rw [List.find?_cons_of_neg] at h
      · unfold dedupSendCalls
        simp only [if_neg hname]
        rw [List.flatMap_cons, sendCount_append,
          execute_nonsend_name world ctx c conversationId useThread hname,
          ih c0 h, Nat.zero_add]
      · simp [hname]

theorem dedup_unseen_le_one (world : World) (ctx : Ctx)
    (conversationId : Option Nat) (useThread : Bool) :
    ∀ calls : List ToolCall,
      sendCount ((dedupSendCalls calls false).flatMap fun c =>
        execute_tool_call world ctx c conversationId useThread) ≤ 1 := by
  intro calls
  induction calls with
  | nil => exact Nat.zero_le 1
  | cons c rest ih =>
    unfold dedupSendCalls
    by_cases hname : c.name = "send_message"
    · simp only [hname, if_true, Bool.false_eq_true, if_false]
      rw [List.flatMap_cons, sendCount_append,
        dedup_seen_no_send world ctx conversationId useThread rest]
      simpa using execute_sendCount_le_one world ctx c conversationId useThread
    · simp only [if_neg hname]
      rw [List.flatMap_cons, sendCount_append,
        execute_nonsend_name world ctx c conversationId useThread hname]
      simpa using ih

/-- C2 as amended: on the full-context reasoning path
(`_reason_about_event`) at most one platform send happens per response —
every `send_message` call after the first is dropped, and what is sent is
exactly the first `send_message` call's send; but on the violation-confirmed
path after a heuristic match (`_handle_heuristic_detection`) the tool calls
are executed without deduplication, each `send_message` call performing its
own platform send. -/
theorem c2_send_dedup_amended (world : World) (ctx : Ctx)
    (conversationId : Option Nat) (useThread : Bool) (calls : List ToolCall)
    (msgId : Nat) :
    (∀ llm, sendCount (reason_about_event world ctx llm conversationId useThread)
      ≤ 1) ∧
    (∀ c0, calls.find? (fun c => c.name == "send_message") = some c0 →
      sendCount (reason_about_event world ctx (LLMResult.ok calls)
          conversationId useThread)
        = sendCount (execute_tool_call world ctx c0 conversationId useThread)) ∧
    (sendCount (handle_heuristic_detection world ctx msgId (LLMResult.ok calls))
      = (calls.map fun c =>
          sendCount (execute_tool_call world ctx c none false)).sum) := by
  refine ⟨?_, ?_, ?_⟩
  · intro llm
    cases llm with
    | unavailable => exact Nat.zero_le 1
    | failure => exact Nat.zero_le 1
    | ok calls2 =>
      exact dedup_unseen_le_one world ctx conversationId useThread calls2
  · intro c0 h
    exact dedup_first_send world ctx conversationId useThread calls c0 h
  · unfold handle_heuristic_detection
    rw [sendCount_append]
    have hdel : sendCount (if ctx.dryRun = true then []
        else [Effect.platformDelete msgId]) = 0 := by
      split <;> rfl
    rw [hdel, Nat.zero_add]
    show sendCount (calls.flatMap fun c => execute_tool_call world ctx c none false) = _
    induction calls with
    | nil => rfl
    | cons c rest ih =>
      rw [List.flatMap_cons, sendCount_append, List.map_cons, List.sum_cons, ih]

/-- Counterexample to C2 as stated: a heuristic-confirmed reasoning response
with two `send_message` calls performs two platform sends (plus the
heuristic-triggered deletion), not one. -/
theorem c2_send_dedup_counterexample :
    sendCount (handle_heuristic_detection exWorld exCtx 500
      (LLMResult.ok [sendCallA, sendCallB])) = 2 ∧
    sendCount (reason_about_event exWorld exCtx
      (LLMResult.ok [sendCallA, sendCallB]) none false) = 1 := by
  constructor <;> decide

/-- Witness for C2 as amended: with two `send_message` calls in one
response, the full-context path sends exactly what the first call sends —
one message. -/
theorem c2_send_dedup_amended_witness :
    sendCount (reason_about_event exWorld exCtx
        (LLMResult.ok [sendCallA, sendCallB]) none false)
      = sendCount (execute_tool_call exWorld exCtx sendCallA none false) ∧
    sendCount (execute_tool_call exWorld exCtx sendCallA none false) = 1 ∧
    sendCount (reason_about_event exWorld exCtx
      (LLMResult.ok [sendCallA, sendCallB]) none false) ≤ 1 := by
  have h := c2_send_dedup_amended exWorld exCtx none false [sendCallA, sendCallB] 500
  exact ⟨h.2.1 sendCallA (by decide), by decide,
    h.1 (LLMResult.ok [sendCallA, sendCallB])⟩

/-- C8: when the reasoning service is unavailable — or its call fails for
any other reason, timeout included — event reasoning returns having executed
no tool call and raising no error; and a heuristic-triggered deletion for the
message still occurs, because the deletion happens before and independently
of the reasoning call. -/
theorem c8_reasoning_unavailable (world : World) (ctx : Ctx)
    (conversationId : Option Nat) (useThread : Bool) (msgId : Nat) :
    reason_about_event world ctx LLMResult.unavailable conversationId useThread = [] ∧
    reason_about_event world ctx LLMResult.failure conversationId useThread = [] ∧
    handle_heuristic_detection world { ctx with dryRun := false } msgId
      LLMResult.unavailable = [Effect.platformDelete msgId] ∧
    handle_heuristic_detection world { ctx with dryRun := false } msgId
      LLMResult.failure = [Effect.platformDelete msgId] :=
  ⟨rfl, rfl, rfl, rfl⟩

theorem platformMutations_eq_nil_iff (l : List Effect) :
    platformMutations l = [] ↔ ∀ e ∈ l, e.isPlatformMutation = false := by
  unfold platformMutations
  rw [List.filter_eq_nil_iff]
  simp

theorem tool_take_dry_no_mutation (world : World) (ctx : Ctx) (args : ToolArgs)
    (hdry : ctx.dryRun = true) :
    ∀ e ∈ tool_take_moderation_action world ctx args,
      e.isPlatformMutation = false := by
  intro e he
  unfold tool_take_moderation_action at he
  repeat' split at he
  all_goals simp_all [hdry, logAction, Effect.isPlatformMutation]

theorem tool_send_dry_no_mutation (world : World) (ctx : Ctx) (args : ToolArgs)
    (conversationId : Option Nat) (useThread : Bool) (hdry : ctx.dryRun = true) :
    ∀ e ∈ tool_send_message world ctx args conversationId useThread,
      e.isPlatformMutation = false := by
  intro e he
  rcases tool_send_shape world ctx args conversationId useThread with
    h | ⟨g, chan, content, h, -⟩ | ⟨chan, ref, rit, sc, content, -, -, -, hdry2, -, -⟩
  · rw [h] at he
    cases he
  · rw [h] at he
    simp only [List.mem_singleton] at he
    simp [he, logAction, Effect.isPlatformMutation]
  · rw [hdry2] at hdry
    cases hdry

theorem tool_escalate_no_mutation (ctx : Ctx) (args : ToolArgs) :
    ∀ e ∈ tool_escalate ctx args, e.isPlatformMutation = false := by
  intro e he
  unfold tool_escalate at he
  repeat' split at he
  all_goals simp_all [logAction, Effect.isPlatformMutation]

theorem tool_suggest_no_mutation (world : World) (ctx : Ctx) (args : ToolArgs) :
    ∀ e ∈ tool_suggest_heuristic world ctx args, e.isPlatformMutation = false := by
  intro e he
  unfold tool_suggest_heuristic at he
  repeat' split at he
  all_goals simp_all [logAction, Effect.isPlatformMutation]
  all_goals rcases he with rfl | rfl <;> rfl

theorem execute_dry_no_mutation (world : World) (ctx : Ctx) (call : ToolCall)
    (conversationId : Option Nat) (useThread : Bool) (hdry : ctx.dryRun = true) :
    ∀ e ∈ execute_tool_call world ctx call conversationId useThread,
      e.isPlatformMutation = false := by
  intro e he
  unfold execute_tool_call at he
  split at he
  · cases he
  · split at he
    · exact tool_take_dry_no_mutation world ctx _ hdry e he
    · split at he
      · exact tool_send_dry_no_mutation world ctx _ conversationId useThread hdry e he
      · split at he
        · exact tool_escalate_no_mutation ctx _ e he
        · split at he
          · exact tool_suggest_no_mutation world ctx _ e he
          · cases he

theorem oneDryAudit_single (rec : AuditRecord) (hrec : rec.dryRun = true) :
    oneDryAudit [Effect.audit rec] := by
  constructor
  · rfl
  · intro r hr
    simp only [auditRecords, List.filterMap] at hr
    simp at hr
    rw [hr]
    exact hrec

/-- Counterexample to C1 as stated: a heuristic-triggered deletion handled
in simulate mode writes no audit record at all (the source only emits a log
line), instead of exactly one dry-run-tagged record. -/
theorem c1_dry_run_counterexample :
    exCtxDry.dryRun = true ∧
    handle_heuristic_detection exWorld exCtxDry 500 (LLMResult.ok []) = [] ∧
    (auditRecords (handle_heuristic_detection exWorld exCtxDry 500
      (LLMResult.ok []))).length = 0 := by
  refine ⟨rfl, rfl, rfl⟩

/-- C1 as amended: in simulate mode no platform-mutating call is made
anywhere in the action executor, the automation matcher, or the heuristic
tier; exactly one dry-run-tagged audit record is written per automation
action and per valid `take_moderation_action`, `send_message` and
`escalate_to_human` tool call; but a heuristic-triggered deletion writes no
audit record at all in simulate mode, and `suggest_heuristic` always writes
its audit record untagged. -/
theorem c1_dry_run_amended (world : World) (ctx : Ctx)
    (hdry : ctx.dryRun = true) :
    (∀ call conversationId useThread,
      platformMutations (execute_tool_call world ctx call conversationId useThread)
        = []) ∧
    (∀ rule msg,
      platformMutations (apply_automation_if_needed (some rule) true msg).2 = [] ∧
      ((apply_automation_if_needed (some rule) true msg).1 = true →
        oneDryAudit (apply_automation_if_needed (some rule) true msg).2)) ∧
    (∀ args, validTakeAction world ctx args = true →
      oneDryAudit (tool_take_moderation_action world ctx args)) ∧
    (∀ args conversationId useThread, validSend world ctx args = true →
      oneDryAudit (tool_send_message world ctx args conversationId useThread)) ∧
    (∀ args, validEscalate ctx args = true → oneDryAudit (tool_escalate ctx args)) ∧
    (∀ args, ∀ r ∈ auditRecords (tool_suggest_heuristic world ctx args),
      r.dryRun = false) ∧
    (∀ msgId, handle_heuristic_detection world ctx msgId (LLMResult.ok []) = []) ∧
    (∀ msgId llm,
      platformMutations (handle_heuristic_detection world ctx msgId llm) = []) := by
  refine ⟨?_, ?_, ?_, ?_, ?_, ?_, ?_, ?_⟩
  · intro call conversationId useThread
    rw [platformMutations_eq_nil_iff]
    exact execute_dry_no_mutation world ctx call conversationId useThread hdry
  · intro rule msg
    constructor
    · rw [platformMutations_eq_nil_iff]
      intro e he
      unfold apply_automation_if_needed at he
      repeat' split at he
      all_goals simp_all [logAction, Effect.isPlatformMutation]
    · intro hhandled
      unfold apply_automation_if_needed at hhandled ⊢
      repeat' split
      all_goals first
        | (exact oneDryAudit_single _ rfl)
        | simp_all
  · intro args hvalid
    rcases ha : args.action with _ | a
    · rw [validTakeAction, ha] at hvalid
      simp at hvalid
    · rcases ht : args.targetUserId with _ | t
      · rw [validTakeAction, ht] at hvalid
        simp at hvalid
      · rcases hg : ctx.guildId with _ | g
        · rw [validTakeAction, hg] at hvalid
          simp at hvalid
        · rw [validTakeAction, ha, ht, hg] at hvalid
          simp only [Option.isSome_some, Bool.true_and, Option.elim,
            Option.getD_some, Bool.and_eq_true, decide_eq_true_eq] at hvalid
          obtain ⟨⟨hmem, hlist⟩, hdel⟩ := hvalid
          have hmem' : t ∈ world.members := by simpa using hmem
          have hlist' : a = "delete_message" ∨ a = "warn" ∨ a = "timeout"
              ∨ a = "kick" ∨ a = "ban" ∨ a = "flag" := by
            simpa using hlist
          rcases hlist' with rfl | rfl | rfl | rfl | rfl | rfl
          · have htc : targetsContext ctx args = true := by
              rcases hdel2 : targetsContext ctx args with _|_
              · rw [hdel2] at hdel
                simp at hdel
              · rfl
            have heq : tool_take_moderation_action world ctx args
                = [logAction g "delete_message" "Would delete message from member."
                    ctx.channelId (some t)
                    (some (args.reason.getD "No reason provided."))
                    ctx.messageId true] := by
              unfold tool_take_moderation_action
              rw [ha, ht, hg]
              simp [hmem', htc, hdry]
            rw [heq]
            exact oneDryAudit_single _ rfl
          · have heq : tool_take_moderation_action world ctx args
                = [logAction g "warn" "Would warn member." ctx.channelId (some t)
                    (some (args.reason.getD "No reason provided.")) none true] := by
              unfold tool_take_moderation_action
              rw [ha, ht, hg]
              simp [hmem', hdry]
            rw [heq]
            exact oneDryAudit_single _ rfl
          · have heq : tool_take_moderation_action world ctx args
                = [logAction g "timeout" "Would timeout member." ctx.channelId
                    (some t) (some (args.reason.getD "No reason provided."))
                    none true] := by
              unfold tool_take_moderation_action
              rw [ha, ht, hg]
              simp [hmem', hdry]
            rw [heq]
            exact oneDryAudit_single _ rfl
          · have heq : tool_take_moderation_action world ctx args
                = [logAction g "kick" "Would kick member." ctx.channelId (some t)
                    (some (args.reason.getD "No reason provided.")) none true] := by
              unfold tool_take_moderation_action
              rw [ha, ht, hg]
              simp [hmem', hdry]
            rw [heq]
            exact oneDryAudit_single _ rfl
          · have heq : tool_take_moderation_action world ctx args
                = [logAction g "ban" "Would ban member." ctx.channelId (some t)
                    (some (args.reason.getD "No reason provided.")) none true] := by
              unfold tool_take_moderation_action
              rw [ha, ht, hg]
              simp [hmem', hdry]
            rw [heq]
            exact oneDryAudit_single _ rfl
          · have heq : tool_take_moderation_action world ctx args
                = [logAction g "flag" "Would flag member." ctx.channelId (some t)
                    (some (args.reason.getD "No reason provided.")) none true] := by
              unfold tool_take_moderation_action
              rw [ha, ht, hg]
              simp [hmem', hdry]
            rw [heq]
            exact oneDryAudit_single _ rfl
  · intro args conversationId useThread hvalid
    unfold validSend at hvalid
    rcases hmsg : args.message with _ | content
    · rw [hmsg] at hvalid
      simp at hvalid
    · rw [hmsg] at hvalid
      by_cases hempty : content = ""
      · simp [hempty] at hvalid
      · rcases hchan : resolveSendChannel world ctx args with _ | chan
        · rw [hchan] at hvalid
          simp [hempty] at hvalid
        · rw [hchan] at hvalid
          simp only [Option.isSome_some, Option.getD_some, Bool.true_and] at hvalid
          have hguild : (match ctx.guildId with
              | some g => some g
              | none => world.channelGuild chan)
              = ctx.guildId.orElse fun _ => world.channelGuild chan := by
            rcases ctx.guildId <;> rfl
          rcases horelse : ctx.guildId.orElse (fun _ => world.channelGuild chan)
            with _ | g
          · rw [horelse] at hvalid
            simp [hempty] at hvalid
          · have heq : tool_send_message world ctx args conversationId useThread
                = [logAction g "message" "[DRY-RUN] Would post in channel."
                    (some chan) none none none true] := by
              unfold tool_send_message
              rw [hmsg]
              simp only [if_neg hempty, hchan, hguild, horelse, hdry, if_true]
            rw [heq]
            exact oneDryAudit_single _ rfl
  · intro args hvalid
    unfold validEscalate at hvalid
    rcases hsum : args.summary with _ | s
    · rw [hsum] at hvalid
      simp at hvalid
    · rw [hsum] at hvalid
      rcases hg : ctx.guildId with _ | g
      · rw [hg] at hvalid
        simp at hvalid
      · by_cases hempty : s = ""
        · simp [hempty] at hvalid
        · have heq : tool_escalate ctx args
              = [logAction g "escalate" "Escalation requested." none none none none
                  ctx.dryRun] := by
            unfold tool_escalate
            rw [hsum, hg]
            simp [hempty]
          rw [heq, hdry]
          exact oneDryAudit_single _ rfl
  · intro args r hr
    unfold tool_suggest_heuristic at hr
    repeat' split at hr
    all_goals simp_all [auditRecords, logAction]
  · intro msgId
    unfold handle_heuristic_detection
    rw [hdry]
    rfl
  · intro msgId llm
    rw [platformMutations_eq_nil_iff]
    intro e he
    unfold handle_heuristic_detection at he
    rcases List.mem_append.mp he with h | h
    · rw [hdry] at h
      cases h
    · split at h
      · obtain ⟨c, hc, hec⟩ := List.mem_flatMap.mp h
        exact execute_dry_no_mutation world ctx c none false hdry e hec
      · cases h

/-- Witness for C1 as amended: in the dry-run context, a valid `warn` tool
call makes no platform call and writes exactly one dry-run-tagged audit
record, and the heuristic tier writes nothing at all. -/
theorem c1_dry_run_amended_witness :
    platformMutations (execute_tool_call exWorld exCtxDry warnCall none false) = [] ∧
    oneDryAudit (tool_take_moderation_action exWorld exCtxDry warnArgs) ∧
    handle_heuristic_detection exWorld exCtxDry 500 (LLMResult.ok []) = [] := by
  have h := c1_dry_run_amended exWorld exCtxDry rfl
  exact ⟨h.1 warnCall none false, h.2.2.1 warnArgs (by decide), h.2.2.2.2.2.2.1 500⟩

theorem auditRecords_append (a b : List Effect) :
    auditRecords (a ++ b) = auditRecords a ++ auditRecords b := by
  unfold auditRecords
  rw [List.filterMap_append]

theorem auditRecords_start_or_continue (msg : Msg) (conversationId : Option Nat)
    (newConvId : Nat) :
    auditRecords (start_or_continue_conversation msg conversationId newConvId).2
      = [] := by
  unfold start_or_continue_conversation
  rcases conversationId with _ | c <;> simp [auditRecords]

theorem auditRecords_mention_tracking (botUserId : Nat) (msg : Msg)
    (conversationId : Nat) :
    auditRecords (handle_mention_tracking botUserId msg conversationId) = [] := by
  unfold handle_mention_tracking
  induction msg.mentions.filter fun u => u != botUserId && u != msg.authorId with
  | nil => rfl
  | cons x xs ih =>
    simp only [List.map_cons, auditRecords, List.filterMap_cons] at ih ⊢
    exact ih

theorem apply_automation_matched (rule : AutomationRule) (dryRun : Bool) (msg : Msg)
    (hactive : rule.active = true)
    (hkw : automationKeywordsMatch rule msg = true)
    (haction : rule.action = "kick" ∨ rule.action = "delete_message") :
    (apply_automation_if_needed (some rule) dryRun msg).1 = true ∧
    (auditRecords (apply_automation_if_needed (some rule) dryRun msg).2).length
      = 1 ∧
    (∀ r ∈ auditRecords (apply_automation_if_needed (some rule) dryRun msg).2,
      r.actionType = rule.action ∧ r.dryRun = dryRun) ∧
    (dryRun = false → rule.action = "delete_message" →
      Effect.platformDelete msg.msgId
        ∈ (apply_automation_if_needed (some rule) dryRun msg).2) ∧
    (dryRun = false → rule.action = "kick" →
      Effect.platformKick msg.authorId
        ∈ (apply_automation_if_needed (some rule) dryRun msg).2) := by
  unfold apply_automation_if_needed
  rcases haction with h | h <;>
    rcases hdry : dryRun with _ | _ <;>
      simp_all [auditRecords, logAction]

/-- Counterexample to C6 as stated: an active automation rule binding
channel 42 to `ban` (empty keyword list, simulate off) matches every
message, yet no ban is executed and no ModerationRecord is written — the
matcher has no branch for `ban` and falls through. -/
theorem c6_automation_counterexample :
    banRule.active = true ∧ banRule.keywords = [] ∧ banRule.action = "ban" ∧
    apply_automation_if_needed (some banRule) false msgPlain = (false, []) ∧
    (handle_message exWorld [] [] banState msgPlain noOracle
      (LLMResult.ok []) 1).effects = [Effect.storeRecordActivity 42] := by
  refine ⟨rfl, rfl, rfl, by decide, by decide⟩

/-- C6 as amended: a matching active automation rule bound to `kick` or
`delete_message` is executed directly — one ModerationRecord with the
corresponding action type, the platform deletion when real — without
invoking the pattern matcher or the reasoning dispatcher; rules bound to any
other action (ban, warn, timeout) fall through with no action and no
record. -/
theorem c6_automation_amended (world : World) (convDb : List ConvRow)
    (heurDb : List HeuristicRule) (state : BotState) (msg : Msg)
    (oracle : HeuristicRule → String → Bool) (llm : LLMResult) (newConvId : Nat)
    (rule : AutomationRule)
    (hbot : msg.authorIsBot = false)
    (hrule : lookupAutomation state msg.channelId = some rule)
    (hactive : rule.active = true)
    (hkw : automationKeywordsMatch rule msg = true) :
    ((rule.action = "kick" ∨ rule.action = "delete_message") →
      ∀ res, res = handle_message world convDb heurDb state msg oracle llm newConvId →
      res.ranPatternMatcher = false ∧ res.invokedReasoning = false ∧
      (auditRecords res.effects).length = 1 ∧
      (∀ r ∈ auditRecords res.effects,
        r.actionType = rule.action ∧ r.dryRun = state.dryRun) ∧
      (state.dryRun = false → rule.action = "delete_message" →
        Effect.platformDelete msg.msgId ∈ res.effects) ∧
      (state.dryRun = false → rule.action = "kick" →
        Effect.platformKick msg.authorId ∈ res.effects)) ∧
    (rule.action ≠ "kick" → rule.action ≠ "delete_message" →
      apply_automation_if_needed (some rule) state.dryRun msg = (false, [])) := by
  constructor
  case right =>
    intro h1 h2
    unfold apply_automation_if_needed
    simp [hactive, hkw, h1, h2]
  intro haction res hres
  have hauto := apply_automation_matched rule state.dryRun msg hactive hkw haction
  have hresp : ∀ (effPre : List Effect),
      auditRecords effPre = [] →
      res.effects = effPre ++ (apply_automation_if_needed (some rule) state.dryRun
        msg).2 →
      res.ranPatternMatcher = false → res.invokedReasoning = false →
      res.ranPatternMatcher = false ∧ res.invokedReasoning = false ∧
      (auditRecords res.effects).length = 1 ∧
      (∀ r ∈ auditRecords res.effects,
        r.actionType = rule.action ∧ r.dryRun = state.dryRun) ∧
      (state.dryRun = false → rule.action = "delete_message" →
        Effect.platformDelete msg.msgId ∈ res.effects) ∧
      (state.dryRun = false → rule.action = "kick" →
        Effect.platformKick msg.authorId ∈ res.effects) := by
    intro effPre hpre heff hpm hir
    refine ⟨hpm, hir, ?_, ?_, ?_, ?_⟩
    · rw [heff, auditRecords_append, hpre, List.nil_append]
      exact hauto.2.1
    · intro r hr
      rw [heff, auditRecords_append, hpre, List.nil_append] at hr
      exact hauto.2.2.1 r hr
    · intro hd hdel
      rw [heff]
      exact List.mem_append_right _ (hauto.2.2.2.1 hd hdel)
    · intro hd hkick
      rw [heff]
      exact List.mem_append_right _ (hauto.2.2.2.2 hd hkick)
  unfold handle_message at hres
  rw [hbot] at hres
  simp only [Bool.false_eq_true, if_false, hrule] at hres
  set S := should_respond convDb world.now state.botUserId msg
    (msg.mentions.contains state.botUserId) with hS
  by_cases hr : S.respond = true
  · simp only [hr, Bool.not_true, Bool.false_eq_true, if_false, hauto.1,
      if_true] at hres
    refine hresp ([Effect.storeRecordActivity msg.channelId] ++
      ((match S.endedConv with
        | some c => [Effect.storeEndConversation c]
        | none => []) ++
      ((start_or_continue_conversation msg S.convId newConvId).2 ++
      handle_mention_tracking state.botUserId msg
        (start_or_continue_conversation msg S.convId newConvId).1)))
      ?_ ?_ ?_ ?_
    · rw [auditRecords_append, auditRecords_append, auditRecords_append]
      rw [auditRecords_start_or_continue, auditRecords_mention_tracking]
      rcases S.endedConv <;> rfl
    · rw [hres]
      simp [List.append_assoc]
    · rw [hres]
    · rw [hres]
  · have hr' : S.respond = false := by
      simpa using hr
    simp only [hr', Bool.not_false, if_true, hauto.1] at hres
    refine hresp ([Effect.storeRecordActivity msg.channelId] ++
      (match S.endedConv with
        | some c => [Effect.storeEndConversation c]
        | none => []))
      ?_ ?_ ?_ ?_
    · rw [auditRecords_append]
      rcases S.endedConv <;> rfl
    · rw [hres]
      try simp [List.append_assoc]
    all_goals rw [hres]

/-- Witness for C6 as amended: the `delete_message` automation on channel 42
(simulate off) deletes author 7's message and writes one `delete_message`
record, the `kick` automation kicks author 7 and writes one `kick` record —
in both cases neither the pattern matcher nor the reasoning service runs —
and the `ban` automation is ignored: the matcher returns unhandled with no
effects. -/
theorem c6_automation_amended_witness :
    (handle_message exWorld [] [] delState msgPlain noOracle
      (LLMResult.ok []) 1).ranPatternMatcher = false ∧
    (handle_message exWorld [] [] delState msgPlain noOracle
      (LLMResult.ok []) 1).invokedReasoning = false ∧
    (auditRecords (handle_message exWorld [] [] delState msgPlain noOracle
      (LLMResult.ok []) 1).effects).length = 1 ∧
    Effect.platformDelete 500 ∈ (handle_message exWorld [] [] delState msgPlain
      noOracle (LLMResult.ok []) 1).effects ∧
    (auditRecords (handle_message exWorld [] [] kickState msgPlain noOracle
      (LLMResult.ok []) 1).effects).length = 1 ∧
    Effect.platformKick 7 ∈ (handle_message exWorld [] [] kickState msgPlain
      noOracle (LLMResult.ok []) 1).effects ∧
    apply_automation_if_needed (some banRule) banState.dryRun msgPlain
      = (false, []) := by
  have h := c6_automation_amended exWorld [] [] delState msgPlain noOracle
    (LLMResult.ok []) 1 delRule rfl (by decide) rfl (by decide)
  have hd := h.1 (Or.inr rfl)
    (handle_message exWorld [] [] delState msgPlain noOracle (LLMResult.ok []) 1)
    rfl
  have hk := (c6_automation_amended exWorld [] [] kickState msgPlain noOracle
    (LLMResult.ok []) 1 kickRule rfl (by decide) rfl (by decide)).1 (Or.inl rfl)
    (handle_message exWorld [] [] kickState msgPlain noOracle (LLMResult.ok []) 1)
    rfl
  have hb := (c6_automation_amended exWorld [] [] banState msgPlain noOracle
    (LLMResult.ok []) 1 banRule rfl (by decide) rfl (by decide)).2
    (by decide) (by decide)
  exact ⟨hd.1, hd.2.1, hd.2.2.1, hd.2.2.2.2.1 rfl rfl, hk.2.2.1,
    hk.2.2.2.2.2 rfl rfl, hb⟩

end ModGPT
